import Mathlib

/-!
Verification of the graphmorph schema-normalization and orchestration code.

The Python source under `src/graphmorph` is shallowly embedded below:
JSON values (the payloads every tool manipulates) become the inductive
`Json`; each Python function of interest becomes a Lean function over
`Json` / plain strings; a raised Python exception is modelled by an
`Option`/`Except` result where a function can raise.  `json.loads` /
`json.dumps` are Python-stdlib and are modelled at the decoded-value
level: a tool taking a raw JSON string takes an `Except String Json`
(the outcome of `json.loads`).
-/

set_option maxRecDepth 16000

namespace Graphmorph

/-- A JSON value, as produced by Python's `json.loads`: the payload type
all graphmorph tools manipulate.  Object entries keep their order (Python
dicts preserve insertion order); keys in decoded JSON are unique. -/
inductive Json where
  | null
  | bool (b : Bool)
  | num (n : Int)
  | str (s : String)
  | arr (elems : List Json)
  | obj (entries : List (String × Json))

/-- Key lookup in an association list, first match wins (Python dict
order; decoded JSON has unique keys anyway). -/
def lookupEntries : List (String × Json) → String → Option Json
  | [], _ => none
  | (k, v) :: rest, key => if k = key then some v else lookupEntries rest key

/-- `d.get(key)` on a Python dict; `none` both for a missing key and for
a non-dict receiver (where Python would raise; callers that care model
the raise explicitly). -/
def Json.lookup : Json → String → Option Json
  | .obj entries, key => lookupEntries entries key
  | _, _ => none

/-- `d.get(key, default)` on a Python dict. -/
def Json.getD (j : Json) (key : String) (default : Json) : Json :=
  (j.lookup key).getD default

/-- Python truthiness of a decoded JSON value: empty containers, empty
strings, zero, `None` and `False` are falsy. -/
def pyTruthy : Json → Bool
  | .null => false
  | .bool b => b
  | .num n => n != 0
  | .str s => !s.isEmpty
  | .arr elems => !elems.isEmpty
  | .obj entries => !entries.isEmpty

/-- Python `==` between a JSON value and a string: true only when the
value is that very string (`5 == "5"` is `False` in Python). -/
def Json.eqStr : Json → String → Bool
  | .str s, t => s == t
  | _, _ => false

/-- `s.startswith(p)`, over the character lists so that it evaluates
inside the kernel. -/
def strHasPrefix (s p : String) : Bool := p.toList.isPrefixOf s.toList

/-- `s.endswith(p)`, over the character lists so that it evaluates
inside the kernel. -/
def strHasSuffix (s p : String) : Bool := p.toList.isSuffixOf s.toList

/-- Effect-free `mapM` for `Except Unit`, written by explicit recursion
(first failure wins, like the Python loops it models). -/
def mapE {α β : Type} (f : α → Except Unit β) : List α → Except Unit (List β)
  | [] => .ok []
  | x :: xs =>
    match f x with
    | .error e => .error e
    | .ok y =>
      match mapE f xs with
      | .error e => .error e
      | .ok ys => .ok (y :: ys)

/-- Effect-free `mapM` for `Option`, written by explicit recursion. -/
def mapO {α β : Type} (f : α → Option β) : List α → Option (List β)
  | [] => some []
  | x :: xs =>
    match f x with
    | none => none
    | some y =>
      match mapO f xs with
      | none => none
      | some ys => some (y :: ys)

mutual
/-- Nesting depth of `ofType` chains: a computable bound on the number
of iterations `_unwrap_graphql_type`'s loop can make from a value. -/
def ofTypeDepth : Json → Nat
  | .obj entries => 1 + ofTypeDepthEntries entries
  | _ => 1
def ofTypeDepthEntries : List (String × Json) → Nat
  | [] => 0
  | (k, v) :: rest => if k = "ofType" then ofTypeDepth v else ofTypeDepthEntries rest
end

theorem ofTypeDepth_pos (c : Json) : 0 < ofTypeDepth c := by
  cases c <;> simp [ofTypeDepth]

theorem lookupEntries_ofTypeDepth {entries : List (String × Json)} {v : Json}
    (h : lookupEntries entries "ofType" = some v) :
    ofTypeDepth v < ofTypeDepth (.obj entries) := by
  induction entries with
  | nil => simp [lookupEntries] at h
  | cons e rest ih =>
    obtain ⟨k', v'⟩ := e
    by_cases hk : k' = "ofType"
    · subst hk
      simp [lookupEntries] at h
      subst h
      simp [ofTypeDepth, ofTypeDepthEntries]
    · simp [lookupEntries, hk] at h
      have := ih h
      simp [ofTypeDepth, ofTypeDepthEntries, hk] at this ⊢
      exact this

theorem Json.lookup_ofTypeDepth {j : Json} {v : Json}
    (h : j.lookup "ofType" = some v) : ofTypeDepth v < ofTypeDepth j := by
  cases j with
  | obj entries => exact lookupEntries_ofTypeDepth h
  | null => simp [Json.lookup] at h
  | bool b => simp [Json.lookup] at h
  | num n => simp [Json.lookup] at h
  | str s => simp [Json.lookup] at h
  | arr elems => simp [Json.lookup] at h

/-! ## `_unwrap_graphql_type` (src/graphmorph/tools/parser_tools.py, lines 11-39)

The Python while-loop walks `ofType` chains.  `type_parts` is a Python
list to which the loop appends `"["` markers and the terminal name; the
loop-carried state `(current, type_parts, is_required)` becomes explicit
arguments.  `current.get("ofType", {})` followed by the `while current:`
re-check is modelled by recursing on the looked-up value when the key is
present (an absent key yields `{}`, which is falsy, so the loop exits —
inlined as the non-recursive alternative). -/

/-- The loop of `_unwrap_graphql_type`, with an explicit fuel counter so
the definition is structurally recursive (and hence evaluates inside the
kernel).  Parts are kept as `Json` values because Python appends the raw
`name` value.  The `0` case returns the loop state unchanged — exactly
the loop-exit behaviour on a falsy `current` — and is never reached when
the fuel exceeds `sizeOf current` (`unwrapLoopF_congr` below shows the
result is fuel-independent from that point on, i.e. the modelled loop
really terminates within the fuel).  The fuel bound used below is
`ofTypeDepth`, the length of the longest `ofType` chain. -/
def unwrapLoopF : Nat → Json → List Json → Bool → List Json × Bool
  | 0, _, parts, req => (parts, req)
  | fuel + 1, current, parts, req =>
    if pyTruthy current then
      if (current.lookup "kind").elim false (·.eqStr "NON_NULL") then
        unwrapLoopF fuel (current.getD "ofType" (.obj [])) parts true
      else if (current.lookup "kind").elim false (·.eqStr "LIST") then
        unwrapLoopF fuel (current.getD "ofType" (.obj [])) (parts ++ [.str "["]) req
      else if (current.lookup "name").elim false pyTruthy then
        (parts ++ [(current.lookup "name").getD .null], req)
      else
        let nxt := current.getD "ofType" (.obj [])
        if pyTruthy nxt then unwrapLoopF fuel nxt parts req
        else (parts ++ [.str "Unknown"], req)
    else (parts, req)

theorem unwrapLoopF_falsy (fuel : Nat) (c : Json) (p : List Json) (r : Bool)
    (h : pyTruthy c = false) : unwrapLoopF fuel c p r = (p, r) := by
  cases fuel <;> simp [unwrapLoopF, h]

/-- Fuel irrelevance: any fuel above `ofTypeDepth current` gives the
same result, so the loop of `_unwrap_graphql_type` terminates and the
fueled definition computes it faithfully. -/
theorem unwrapLoopF_congr : ∀ (n : Nat) (c : Json), ofTypeDepth c ≤ n →
    ∀ (p : List Json) (r : Bool) (f₁ f₂ : Nat), ofTypeDepth c < f₁ → ofTypeDepth c < f₂ →
    unwrapLoopF f₁ c p r = unwrapLoopF f₂ c p r := by
  intro n
  induction n with
  | zero =>
    intro c hc
    have := ofTypeDepth_pos c
    omega
  | succ n ih =>
    intro c hc p r f₁ f₂ h₁ h₂
    have hpos := ofTypeDepth_pos c
    obtain ⟨a, rfl⟩ : ∃ a, f₁ = a + 1 := ⟨f₁ - 1, by omega⟩
    obtain ⟨b, rfl⟩ : ∃ b, f₂ = b + 1 := ⟨f₂ - 1, by omega⟩
    simp only [unwrapLoopF]
    split
    · -- current truthy
      split
      · -- NON_NULL branch
        cases hx : c.lookup "ofType" with
        | some v =>
          have hv := Json.lookup_ofTypeDepth hx
          simp only [Json.getD, hx, Option.getD_some]
          exact ih v (by omega) p true a b (by omega) (by omega)
        | none =>
          simp only [Json.getD, hx, Option.getD_none]
          rw [unwrapLoopF_falsy a _ _ _ (by rfl), unwrapLoopF_falsy b _ _ _ (by rfl)]
      · split
        · -- LIST branch
          cases hx : c.lookup "ofType" with
          | some v =>
            have hv := Json.lookup_ofTypeDepth hx
            simp only [Json.getD, hx, Option.getD_some]
            exact ih v (by omega) _ r a b (by omega) (by omega)
          | none =>
            simp only [Json.getD, hx, Option.getD_none]
            rw [unwrapLoopF_falsy a _ _ _ (by rfl), unwrapLoopF_falsy b _ _ _ (by rfl)]
        · split
          · -- name truthy: no recursion
            rfl
          · -- fall-through branch
            cases hx : c.lookup "ofType" with
            | some v =>
              have hv := Json.lookup_ofTypeDepth hx
              simp only [Json.getD, hx, Option.getD_some]
              split
              · exact ih v (by omega) p r a b (by omega) (by omega)
              · rfl
            | none =>
              simp only [Json.getD, hx, Option.getD_none]
              simp [pyTruthy]
    · rfl

/-- The loop of `_unwrap_graphql_type` run from a descriptor, with fuel
that `unwrapLoopF_congr` shows is sufficient. -/
def unwrapLoop (type_info : Json) (parts : List Json) (req : Bool) :
    List Json × Bool :=
  unwrapLoopF (ofTypeDepth type_info + 1) type_info parts req

/-- `"".join(parts)`: fails (Python `TypeError`) when a part is not a
string.  In `_unwrap_graphql_type` the parts are bracket markers and the
terminal `name` value. -/
def joinStrParts : List Json → Option String
  | [] => some ""
  | .str s :: rest => (joinStrParts rest).map (s ++ ·)
  | _ => none

/-- `type_name.count("[")`: occurrences of the bracket character. -/
def countOpenBrackets (s : String) : Nat :=
  s.toList.count '['

/-- `_unwrap_graphql_type(type_info)`.  Returns `none` when Python would
raise (a non-string part reaching `"".join`). -/
def unwrapGraphqlType (type_info : Json) : Option (String × Bool) :=
  let (parts, req) := unwrapLoop type_info [] false
  (joinStrParts parts).map fun joined =>
    (joined ++ String.mk (List.replicate (countOpenBrackets joined) ']'), req)


/-! ## Entity data model (src/graphmorph/state/schemas.py)

`SchemaField` / `SchemaEntity` are `TypedDict`s; at runtime they are
plain dicts whose keys appear in construction order.  The model types a
field name / kind / type as `String` and a description as
`Option String` (the shapes all well-formed introspection and OpenAPI
data produce; a definition carrying e.g. a numeric `name` is outside the
model space and the embedded builders flag it as unmodelled). -/

structure SchemaField where
  name : String
  field_type : String
  is_required : Bool
  description : Option String
deriving Repr, DecidableEq

structure SchemaEntity where
  name : String
  kind : String
  description : Option String
  fields : List SchemaField
  source_api : String
deriving Repr, DecidableEq

/-- `d.get("description")` as stored into a field/entity: `none` for a
missing key or JSON `null`, the string otherwise.  (A non-string,
non-null description would be stored raw by Python; outside the model
space, flagged by the callers below.) -/
def descriptionOf (d : Json) : Except Unit (Option String) :=
  match d.lookup "description" with
  | none => .ok none
  | some .null => .ok none
  | some (.str s) => .ok (some s)
  | some _ => .error ()

/-! ## `_parse_graphql_type` (parser_tools.py, lines 41-85) -/

/-- `x or []` for the `fields` / `inputFields` lookups: the looked-up
value when truthy, else an empty list. -/
def orEmptyList (v : Json) : Json :=
  if pyTruthy v then v else .arr []

/-- Build one `SchemaField` from an entry of `fields` / `inputFields`
(lines 59-68).  `.error ()` where Python raises (`field` not a dict, a
non-string part reaching `"".join` in the unwrap) or where the value
does not fit the `String`-typed model (non-string `name`). -/
def parseGraphqlField (field : Json) : Except Unit SchemaField := do
  match field with
  | .obj _ =>
    let type_info := field.getD "type" (.obj [])
    match unwrapGraphqlType type_info with
    | none => .error ()
    | some (type_name, is_req) =>
      let nm ← match field.lookup "name" with
        | none => .ok "unknown"
        | some (.str s) => .ok s
        | some _ => .error ()
      let desc ← descriptionOf field
      .ok ⟨nm, type_name, is_req, desc⟩
  | _ => .error ()

/-- Build one synthetic `ENUM_VALUE` field from an `enumValues` entry
(lines 70-77). -/
def parseGraphqlEnumValue (ev : Json) : Except Unit SchemaField := do
  match ev with
  | .obj _ =>
    let nm ← match ev.lookup "name" with
      | none => .ok "unknown"
      | some (.str s) => .ok s
      | some _ => .error ()
    let desc ← descriptionOf ev
    .ok ⟨nm, "ENUM_VALUE", true, desc⟩
  | _ => .error ()

/-- Map an `Except`-producing builder over the elements of what must be
a JSON array (Python iterates any truthy container, but `.get` on the
resulting non-dict elements raises, so a truthy non-array always ends in
a raise — folded into `.error ()` here). -/
def mapJsonArr (f : Json → Except Unit SchemaField) (v : Json) :
    Except Unit (List SchemaField) :=
  match v with
  | .arr elems => mapE f elems
  | _ => .error ()

/-- `_parse_graphql_type(type_def, source_api)` (lines 41-85).
`.ok none` models the Python `return None` (introspection-internal name
or `SCALAR` kind); `.error ()` models a raise (non-dict input, bad
nested shapes) or a value outside the `String`-typed entity model
(non-string `name`/`kind`/`description`, which Python would carry
through raw). -/
def gqlRawFields (type_def : Json) : Json :=
  let r1 := orEmptyList (type_def.getD "fields" .null)
  if !pyTruthy r1 then orEmptyList (type_def.getD "inputFields" .null) else r1

def parseGraphqlType (type_def : Json) (source_api : String) :
    Except Unit (Option SchemaEntity) := do
  match type_def with
  | .obj _ =>
    let nm ← match type_def.lookup "name" with
      | none => .ok ""
      | some (.str s) => .ok s
      | some _ => .error ()   -- `name.startswith` raises on a non-string
    if strHasPrefix nm "__" then .ok none
    else
      let kindVal := type_def.getD "kind" (.str "UNKNOWN")
      if kindVal.eqStr "SCALAR" then .ok none
      else do
        let kind ← match kindVal with
          | .str s => .ok s
          | _ => .error ()    -- non-string kind: outside the model space
        let fields ← mapJsonArr parseGraphqlField (gqlRawFields type_def)
        let enum_values := orEmptyList (type_def.getD "enumValues" .null)
        let evFields ← mapJsonArr parseGraphqlEnumValue enum_values
        let desc ← descriptionOf type_def
        .ok (some ⟨nm, kind, desc, fields ++ evFields, source_api⟩)
  | _ => .error ()            -- `type_def.get` raises on a non-dict

/-! ## `parse_graphql_schema` (parser_tools.py, lines 88-151)

On every input this action returns an `ERROR`-prefixed string: the only
returns inside the `try` block that are reachable are the two explicit
`ERROR` returns, because line 129 (`by_kind = dict[str, list[SchemaEntity]] = {}`,
a chained assignment whose second target is an item assignment on the
builtin `dict` type) raises `TypeError` before any summary line,
sentinel line or `SUCCESS` return is produced, and the catch-all
`except Exception` turns that into an error string. -/

/-- `str(e)` for the `TypeError` raised by line 129 (item assignment on
the `dict` type object), as produced by CPython. -/
def dictTypeAssignMsg : String :=
  "\x27type\x27 object does not support item assignment"

/-- Stages `parse_graphql_schema` can reach after `json.loads`. -/
inductive GqlParseStage where
  | decodeFail (msg : String)   -- `json.JSONDecodeError`
  | raised                      -- an exception before line 129
  | noTypes                     -- the `if not types:` early return
  | built (entities : List SchemaEntity)  -- reached line 129
deriving Repr, DecidableEq

/-- Lines 107-112: `if "data" in data: schema = data["data"].get("__schema", {})`,
`elif "__schema" in data: schema = data["__schema"]`, `else: schema = data`
(membership/indexing/`.get` on a non-dict raises). -/
def gqlSchemaOf (data : Json) : Except Unit Json :=
  match data with
  | .obj _ =>
    if (data.lookup "data").isSome then
      match data.lookup "data" with
      | some (.obj inner) => .ok (Json.getD (.obj inner) "__schema" (.obj []))
      | _ => .error ()        -- `.get` on a non-dict raises
    else if (data.lookup "__schema").isSome then
      .ok ((data.lookup "__schema").getD .null)
    else .ok data
  | _ => .error ()            -- `in` / `.get` on a non-dict raises

/-- Lines 105-123: extract the schema dict, the `types` list, and run
the entity builder over it. -/
def gqlStage (decoded : Except String Json) (source_api : String) :
    GqlParseStage :=
  match decoded with
  | .error msg => .decodeFail msg
  | .ok data =>
    match gqlSchemaOf data with
    | .error _ => .raised
    | .ok schema =>
      match schema with
      | .obj _ =>
        let types := schema.getD "types" (.arr [])
        if !pyTruthy types then .noTypes
        else
          match types with
          | .arr tds =>
            match mapE (fun td => parseGraphqlType td source_api) tds with
            | .error _ => .raised
            | .ok opts => .built (opts.filterMap id)
          | _ => .raised      -- iterating a truthy non-list ends in a raise
      | _ => .raised          -- `schema.get` raises on a non-dict

/-- The string `parse_graphql_schema` returns.  In the `.built` stage
line 129 raises `TypeError`; in the `.raised` stage the exception
message differs by cause but the handler prefix is the same (the model
does not reproduce each CPython message, only that the catch-all
produces this prefix and no sentinel). -/
def parse_graphql_schema (decoded : Except String Json) (source_api : String) :
    String :=
  match gqlStage decoded source_api with
  | .decodeFail msg => "ERROR - Invalid JSON: " ++ msg
  | .raised => "ERROR - Failed to parse GraphQL schema: " ++ dictTypeAssignMsg
  | .noTypes =>
    "ERROR - No types found in GraphQL schema. Is this a valid GraphQL instrospection result?"
  | .built _ => "ERROR - Failed to parse GraphQL schema: " ++ dictTypeAssignMsg

/-! ## OpenAPI parsing (parser_tools.py, lines 158-315) -/

/-- `ref.split("/")` over the character list (Python `str.split` with
an explicit separator never returns an empty list). -/
def splitSlash : List Char → List (List Char)
  | [] => [[]]
  | c :: rest =>
    let r := splitSlash rest
    if c = '/' then [] :: r
    else
      match r with
      | h :: t => (c :: h) :: t
      | [] => [[c]]

/-- `_resolve_openapi_ref(ref)` (lines 158-161): final path segment of
the reference string, i.e. `ref.split("/")[-1]` (`split` with a
separator never yields an empty list, so `[-1]` is total). -/
def resolveOpenapiRef (ref : String) : String :=
  String.mk ((splitSlash ref.toList).getLastD [])

/-- Python `str(value)` for scalar JSON values.  `.error ()` marks a
container value, whose Python `str()` is a repr the `String`-typed model
does not reproduce (no claim reaches one). -/
def pyStrScalar : Json → Except Unit String
  | .null => .ok "None"
  | .bool true => .ok "True"
  | .bool false => .ok "False"
  | .num n => .ok (toString n)
  | .str s => .ok s
  | _ => .error ()

/-- The element sequence Python iteration (`set(...)`, `for v in ...`)
produces from a value: a list yields its elements, a string its
characters, a dict its keys; `.error ()` where Python raises
`TypeError` on a non-iterable. -/
def pyIterElems : Json → Except Unit (List Json)
  | .arr xs => .ok xs
  | .str s => .ok (s.toList.map fun c => .str (String.mk [c]))
  | .obj kvs => .ok (kvs.map fun kv => .str kv.1)
  | _ => .error ()

/-- `_parse_openapi_type(prop_def)` (lines 164-198).  `.error ()` where
Python raises (non-dict `prop_def` ends in a raise whichever membership
branch is taken; a non-string `$ref` has no `.split`; non-dict `items`
ends in a raise) or where the returned value would not be a string
(a non-string hashable `type` is passed through raw by
`type_mapping.get(prop_type, prop_type)`; an unhashable one raises). -/
def parseOpenapiType (prop_def : Json) : Except Unit String :=
  match prop_def with
  | .obj _ =>
    match prop_def.lookup "$ref" with
    | some (.str r) => .ok (resolveOpenapiRef r)
    | some _ => .error ()
    | none =>
      let prop_type := prop_def.getD "type" (.str "object")
      if prop_type.eqStr "array" then
        match prop_def.getD "items" (.obj []) with
        | .obj ikvs =>
          match (Json.obj ikvs).lookup "$ref" with
          | some (.str r) => .ok ("[" ++ resolveOpenapiRef r ++ "]")
          | some _ => .error ()
          | none =>
            -- `item_type = items.get("type", "object")`, formatted by
            -- the f-string as `str(item_type)`; note: NOT passed
            -- through `type_mapping`.
            match pyStrScalar ((Json.obj ikvs).getD "type" (.str "object")) with
            | .ok t => .ok ("[" ++ t ++ "]")
            | .error _ => .error ()
        | _ => .error ()
      else
        match prop_type with
        | .str t =>
          .ok (((([("string", "String"), ("integer", "Int"), ("number", "Float"),
                   ("boolean", "Boolean"), ("object", "Object")] :
                   List (String × String)).lookup t).getD t))
        | _ => .error ()
  | _ => .error ()

/-- Lines 205-214: the entity-kind classification of
`_parse_openapi_schema`.  `schema_type` defaults to `"object"` when the
`type` key is absent. -/
def classifyOpenapiKind (schema_def : Json) : String :=
  let schema_type := schema_def.getD "type" (.str "object")
  if (schema_def.lookup "enum").isSome then "ENUM"
  else if schema_type.eqStr "object" || (schema_def.lookup "properties").isSome then
    "OBJECT"
  else if (schema_def.lookup "allOf").isSome then "COMPOSITE"
  else "OBJECT"

/-- One iteration of the properties loop (lines 223-231): the field for
property `kv`, required iff its NAME is a member of the schema-level
`required` element set — the property definition `kv.2` contributes only
the type string and the description. -/
def openapiPropField (requiredElems : List Json) (kv : String × Json) :
    Except Unit SchemaField := do
  let field_type ← parseOpenapiType kv.2
  let desc ← descriptionOf kv.2
  .ok ⟨kv.1, field_type, requiredElems.any (·.eqStr kv.1), desc⟩

/-- Lines 234-241: `if "enum" in schema_def: for value in schema_def["enum"]: ...`,
one synthetic `ENUM_VALUE` field per value. -/
def openapiEnumFields (schema_def : Json) : Except Unit (List SchemaField) :=
  match schema_def.lookup "enum" with
  | none => .ok []
  | some ev => do
    let vs ← pyIterElems ev
    mapE (fun v => do
      let nm ← pyStrScalar v
      Except.ok (⟨nm, "ENUM_VALUE", true, none⟩ : SchemaField)) vs

/-- `_parse_openapi_schema(name, schema_def, source_api)` (lines
201-249).  Always builds an entity unless a step raises / leaves the
model space (`.error ()`). -/
def parseOpenapiSchema (name : String) (schema_def : Json) (source_api : String) :
    Except Unit SchemaEntity := do
  match schema_def with
  | .obj _ =>
    let kind := classifyOpenapiKind schema_def
    -- `required_fields = set(schema_def.get("required", []))`
    let requiredElems ← pyIterElems (schema_def.getD "required" (.arr []))
    -- `properties = schema_def.get("properties", {})`; `.items()`
    -- raises on a present non-dict value
    let propEntries ← match schema_def.getD "properties" (.obj []) with
      | .obj kvs => Except.ok kvs
      | _ => Except.error ()
    let fields ← mapE (openapiPropField requiredElems) propEntries
    let enumFields ← openapiEnumFields schema_def
    let desc ← descriptionOf schema_def
    .ok ⟨name, kind, desc, fields ++ enumFields, source_api⟩
  | _ => .error ()            -- `schema_def.get` raises on a non-dict

/-- Stages `parse_openapi_spec` (lines 252-315) can reach. -/
inductive OapiParseStage where
  | decodeFail (msg : String)   -- `json.JSONDecodeError`
  | raised                      -- an exception inside the `try` block
  | noSchemas                   -- the `if not schemas:` early return
  | built (entities : List SchemaEntity)  -- the success path
deriving Repr, DecidableEq

/-- Lines 266-282: locate the schema dict (`components.schemas`, else
`definitions`) and build every entity. -/
def oapiStage (decoded : Except String Json) (source_api : String) :
    OapiParseStage :=
  match decoded with
  | .error msg => .decodeFail msg
  | .ok spec =>
    match spec with
    | .obj _ =>
      -- `schemas = spec.get("components", {}).get("schemas", {})`
      match spec.getD "components" (.obj []) with
      | .obj comps =>
        let s1 := Json.getD (.obj comps) "schemas" (.obj [])
        let schemas := if pyTruthy s1 then s1
                       else spec.getD "definitions" (.obj [])
        if !pyTruthy schemas then .noSchemas
        else
          match schemas with
          | .obj kvs =>
            match mapE (fun kv => parseOpenapiSchema kv.1 kv.2 source_api) kvs with
            | .error _ => .raised
            | .ok es => .built es
          | _ => .raised      -- `.items()` on a truthy non-dict raises
      | _ => .raised          -- `.get` on a non-dict `components` raises
    | _ => .raised            -- `spec.get` raises on a non-dict

/-! ## The sentinel JSON payload (lines 143-144 / 307-308)

On success `parse_openapi_spec` appends the literal sentinel line
`---ENTITIES_JSON---` and then `json.dumps([dict(e) for e in entities], indent=2)`
to `summary_lines` and joins with newlines.  `dict(e)` of a `TypedDict`
is the dict itself (keys in construction order); `json.dumps`/`json.loads`
are the stdlib bridge between that dict and text, so the payload is
modelled at the decoded-JSON level: `entitiesToJson` is what the emitted
text decodes back to. -/

def fieldToJson (f : SchemaField) : Json :=
  .obj [("name", .str f.name), ("field_type", .str f.field_type),
        ("is_required", .bool f.is_required),
        ("description", f.description.elim Json.null Json.str)]

def entityToJson (e : SchemaEntity) : Json :=
  .obj [("name", .str e.name), ("kind", .str e.kind),
        ("description", e.description.elim Json.null Json.str),
        ("fields", .arr (e.fields.map fieldToJson)),
        ("source_api", .str e.source_api)]

def entitiesToJson (es : List SchemaEntity) : Json :=
  .arr (es.map entityToJson)

/-- Reading a serialized field back (what a consumer of the sentinel
payload reconstructs; `SchemaField` is a `TypedDict`, so the decoded
dict is the field). -/
def fieldFromJson (j : Json) : Option SchemaField :=
  match j.lookup "name", j.lookup "field_type", j.lookup "is_required",
        j.lookup "description" with
  | some (.str n), some (.str ft), some (.bool r), some .null =>
    some ⟨n, ft, r, none⟩
  | some (.str n), some (.str ft), some (.bool r), some (.str d) =>
    some ⟨n, ft, r, some d⟩
  | _, _, _, _ => none

def entityFromJson (j : Json) : Option SchemaEntity :=
  match j.lookup "name", j.lookup "kind", j.lookup "description",
        j.lookup "fields", j.lookup "source_api" with
  | some (.str n), some (.str k), some d, some (.arr fs), some (.str src) =>
    match d with
    | .null => (mapO fieldFromJson fs).map fun fields => ⟨n, k, none, fields, src⟩
    | .str ds => (mapO fieldFromJson fs).map fun fields => ⟨n, k, some ds, fields, src⟩
    | _ => none
  | _, _, _, _, _ => none

def entitiesFromJson (j : Json) : Option (List SchemaEntity) :=
  match j with
  | .arr js => mapO entityFromJson js
  | _ => none

/-- The JSON payload `parse_openapi_spec` emits after the sentinel line:
present exactly on the success path. -/
def parseOpenapiPayload (decoded : Except String Json) (source_api : String) :
    Option Json :=
  match oapiStage decoded source_api with
  | .built es => some (entitiesToJson es)
  | _ => none

/-! ## Probe tools (src/graphmorph/tools/api_tools.py) -/

/-- `key in container` for Python: key membership on a dict, substring
test on a string, element membership on a list; `TypeError` otherwise. -/
def pyContainsKey : Json → String → Except Unit Bool
  | .obj entries, key => .ok (lookupEntries entries key).isSome
  | .str s, key => .ok (decide (key.toList <:+: s.toList))
  | .arr elems, key => .ok (elems.any (·.eqStr key))
  | _, _ => .error ()

/-- `container[key]` for a string key: dict lookup (`KeyError` on a
miss), `TypeError` on anything else. -/
def pyIndex : Json → String → Except Unit Json
  | .obj entries, key =>
    match lookupEntries entries key with
    | some v => .ok v
    | none => .error ()
  | _, _ => .error ()

/-- Python `len`: `TypeError` on unsized values. -/
def pyLen : Json → Except Unit Nat
  | .str s => .ok s.length
  | .arr xs => .ok xs.length
  | .obj kvs => .ok kvs.length
  | _ => .error ()

/-- Outcome of one HTTP request made by a probe.  A received response
carries its status code and the result of `response.json()` (`.error`
models the decode exception for a non-JSON body). -/
inductive ProbeOutcome where
  | response (status : Nat) (body : Except String Json)
  | timeout
  | transportError (msg : String)

/-- Placeholder for the message of an exception reaching the probe's
catch-all handler (`str(e)` of a `TypeError`/`KeyError`/...; the model
does not reproduce each CPython message, only the handler prefix). -/
def unexpectedErrMsg : String := "unexpected error"

/-- The body of `check_graphql_endpoint`'s `try` block once a response
arrived (lines 38-46): `.error ()` models an exception reaching the
catch-all `except Exception` handler. -/
def checkGqlInner (status : Nat) (body : Except String Json) :
    Except Unit String :=
  if status == 200 then do
    let data ← match body with
      | .ok d => Except.ok d
      | .error _ => Except.error ()  -- `response.json()` raised
    let hasData ← pyContainsKey data "data"
    let cond ← if hasData then do
        let dd ← pyIndex data "data"
        pyContainsKey dd "__schema"
      else pure false
    if cond then do
      let dd ← pyIndex data "data"
      let ds ← pyIndex dd "__schema"
      let ts ← pyIndex ds "types"
      let n ← pyLen ts
      pure ("YES - This is a GraphQL endpoint. Found " ++ toString n ++
        " types via introspection.")
    else do
      let hasErrors ← pyContainsKey data "errors"
      if hasErrors then do
        let errs ← pyIndex data "errors"
        let e0 ← match errs with
          | .arr (e :: _) => Except.ok e
          | _ => Except.error ()   -- `[0]` fails / later `.get` raises
        let msgVal ← match e0 with
          | .obj _ => Except.ok (e0.getD "message" (.str "Unknown error"))
          | _ => Except.error ()   -- `.get` raises on a non-dict
        let msg ← pyStrScalar msgVal
        pure ("MAYBE - Endpoint responded but with errors: " ++ msg)
      else
        pure ("NO - Endpoint returned status " ++ toString status ++
          ". Not a GraphQL endpoint.")
  else
    pure ("NO - Endpoint returned status " ++ toString status ++
      ". Not a GraphQL endpoint.")

/-- `check_graphql_endpoint` (api_tools.py, lines 11-53), from the
outcome of the introspection POST; `request_timeout` is the configured
timeout interpolated into the timeout message. -/
def check_graphql_endpoint (request_timeout : Int) (outcome : ProbeOutcome) :
    String :=
  match outcome with
  | .timeout =>
    "ERROR - Request timed out after " ++ toString request_timeout ++ " seconds."
  | .transportError msg => "ERROR - Could not connect to endpoint: " ++ msg
  | .response status body =>
    match checkGqlInner status body with
    | .ok s => s
    | .error _ => "ERROR - Unexpected error: " ++ unexpectedErrMsg

/-- The ten conventional spec paths scanned by `check_openapi_endpoint`
(lines 187-198), in order. -/
def commonPaths : List String :=
  ["/openapi.json", "/openapi.yaml", "/swagger.json", "/swagger.yaml",
   "/api-docs", "/v3/api-docs", "/v2/api-docs", "/docs/openapi.json",
   "/.well-known/openapi.json", "/api/openapi.json"]

/-- The inner `try` of the path scan (lines 214-223): returns the
version string when the body is accepted as an OpenAPI document,
`none` when it is valid JSON without the markers, `.error ()` when a
step raises (which the `except:` turns into the YAML-suffix check). -/
def openapiJsonHit (data : Json) : Except Unit (Option String) := do
  let m1 ← pyContainsKey data "openapi"
  let marked ← if m1 then pure true else do
    let m2 ← pyContainsKey data "swagger"
    if m2 then pure true else pyContainsKey data "paths"
  if marked then
    match data with
    | .obj _ => do
      let v1 := data.getD "openapi" .null
      let v := if pyTruthy v1 then v1
               else
                 let v2 := data.getD "swagger" .null
                 if pyTruthy v2 then v2 else .str "unknown"
      let vs ← pyStrScalar v   -- f-string `str(version)`
      pure (some vs)
    | _ => Except.error ()     -- `.get` raises on a non-dict
  else pure none

/-- Outcome of one GET in the path scan: a response (status plus
`response.json()` outcome) or an exception caught by the per-path
`except: continue`. -/
inductive PathOutcome where
  | response (status : Nat) (body : Except String Json)
  | requestError

/-- Whether one scanned path is accepted (lines 208-223), and the entry
appended to `found_specs` when it is. -/
def pathHit (base_url path : String) (outcome : PathOutcome) : Option String :=
  match outcome with
  | .requestError => none
  | .response status body =>
    if status == 200 then
      match body with
      | .ok data =>
        match openapiJsonHit data with
        | .ok (some v) => some (base_url ++ path ++ " (version: " ++ v ++ ")")
        | .ok none => none
        | .error _ =>
          if strHasSuffix path ".yaml" then
            some (base_url ++ path ++ " (YAML format)")
          else none
      | .error _ =>            -- body not JSON
        if strHasSuffix path ".yaml" then
          some (base_url ++ path ++ " (YAML format)")
        else none
    else none

/-- `base_url.rstrip("/")`. -/
def rstripSlash (s : String) : String :=
  String.mk ((s.toList.reverse.dropWhile (· == '/')).reverse)

/-- `check_openapi_endpoint` (lines 173-233).  `fetch` gives the
outcome of the GET for each full URL; `scanFail` models an exception
caught by the scan-level handler (line 232), distinct from the
per-path `except: continue`. -/
def check_openapi_endpoint (scanFail : Option String)
    (fetch : String → PathOutcome) (base_url : String) : String :=
  match scanFail with
  | some msg => "ERROR - Failed to check for OpenAPI: " ++ msg
  | none =>
    let base := rstripSlash base_url
    let found := commonPaths.filterMap fun p => pathHit base p (fetch (base ++ p))
    if !found.isEmpty then
      "YES - Found OpenAPI spec at:\n" ++
        String.intercalate "\n" (found.map ("  • " ++ ·))
    else "NO - No OpenAPI specification found at standard locations."

/-! ## Conditional pipeline (src/graphmorph/workflows/pipeline.py)

The LangGraph wiring after the `export` node:
`export → validate → (prepare_parse → parse → END | END)`.  The state
channels the routing reads/writes are `messages` (append-only; modelled
as the message content strings) and `status` (overwritten).
`raw_schema` is modelled as `Option String` standing for a truthy
captured payload (its repr is interpolated into the instruction
text). -/

structure AgentState where
  messages : List String
  raw_schema : Option String
  status : String
deriving Repr, DecidableEq

/-- The `check_export_success` validation node (lines 20-26): scans
every message for the literal substring `"ERROR"` and returns the
`status` update. -/
def check_export_success (s : AgentState) : String :=
  if s.messages.any (fun m => decide ("ERROR".toList <:+: m.toList)) then "failed"
  else "success"

/-- The `prepare_for_parsing` node (lines 31-39): the messages appended
(one instruction when a raw schema was captured, none otherwise). -/
def prepare_for_parsing (s : AgentState) : List String :=
  match s.raw_schema with
  | some raw => ["Now parse this schema into structured entities:\n\n" ++ raw]
  | none => []

/-- The `route_after_validation` conditional edge (lines 44-47). -/
def route_after_validation (s : AgentState) : String :=
  if s.status == "failed" then "end" else "prepare_parse"

inductive PipelineNode where
  | validate
  | prepare_parse
  | parse
deriving Repr, DecidableEq

/-- The pipeline from the end of the `export` phase to `END`, per the
edges wired in `build_conditional_pipeline` (lines 50-58): `validate`
merges its status update, the conditional edge routes to `END` or to
`prepare_parse` (which appends its messages), then the `parse` subgraph
(abstract here) runs.  Returns the final state and the nodes visited
after `export`, in order. -/
def runAfterExport (parseStep : AgentState → AgentState) (s : AgentState) :
    AgentState × List PipelineNode :=
  let s1 := { s with status := check_export_success s }
  if route_after_validation s1 == "end" then (s1, [.validate])
  else
    let s2 := { s1 with messages := s1.messages ++ prepare_for_parsing s1 }
    (parseStep s2, [.validate, .prepare_parse, .parse])

/-! ## String helper lemmas -/

theorem toList_append (a b : String) : (a ++ b).toList = a.toList ++ b.toList := by
  simp [String.toList]

/-- An infix of a concatenation lies in the left part, in the right
part, or straddles the boundary. -/
theorem infix_append_cases {α : Type} {n a b : List α} (h : n <:+: a ++ b) :
    n <:+: a ∨ n <:+: b ∨
    ∃ k, 0 < k ∧ k < n.length ∧ n.take k <:+ a ∧ n.drop k <+: b := by
  obtain ⟨s, t, hst⟩ := h
  have hst' : s ++ (n ++ t) = a ++ b := by
    rw [← List.append_assoc]
    exact hst
  rcases List.append_eq_append_iff.mp hst' with ⟨a', ha', hrest⟩ | ⟨c', _, hb⟩
  · rcases List.append_eq_append_iff.mp hrest with ⟨x, hx, _⟩ | ⟨y, hy, hb2⟩
    · exact Or.inl ⟨s, x, by rw [ha', hx, List.append_assoc]⟩
    · rcases eq_or_ne a' [] with rfl | hane
      · refine Or.inr (Or.inl ⟨[], t, ?_⟩)
        simp only [List.nil_append] at hy
        rw [hb2, ← hy]
        simp
      · rcases eq_or_ne y [] with rfl | hyne
        · refine Or.inl ⟨s, [], ?_⟩
          simp only [List.append_nil] at hy ⊢
          rw [ha', ← hy]
        · refine Or.inr (Or.inr ⟨a'.length, ?_, ?_, ?_, ?_⟩)
          · exact List.length_pos.mpr hane
          · rw [hy, List.length_append]
            have := List.length_pos.mpr hyne
            omega
          · rw [hy, List.take_left]
            exact ⟨s, ha'.symm⟩
          · rw [hy, List.drop_left]
            exact ⟨t, hb2.symm⟩
  · exact Or.inr (Or.inl ⟨c', t, by rw [hb, List.append_assoc]⟩)

/-- Refute containment in a concatenation: not in either part and no
straddling split works. -/
theorem not_infix_append {α : Type} {n a b : List α}
    (ha : ¬ n <:+: a) (hb : ¬ n <:+: b)
    (hk : ∀ k < n.length, 0 < k → ¬ n.take k <:+ a) :
    ¬ n <:+: a ++ b := by
  intro h
  rcases infix_append_cases h with h | h | ⟨k, hk1, hk2, hk3, _⟩
  · exact ha h
  · exact hb h
  · exact hk k hk2 hk1 hk3

/-- A prefix no longer than the left part of a concatenation is a
prefix of that left part. -/
theorem prefix_append_iff_of_le {α : Type} {p a b : List α}
    (h : p.length ≤ a.length) : p <+: a ++ b ↔ p <+: a := by
  constructor
  · intro hp
    have h1 := List.prefix_iff_eq_take.mp hp
    rw [List.take_append_eq_append_take, Nat.sub_eq_zero_of_le h, List.take_zero,
      List.append_nil] at h1
    exact List.prefix_iff_eq_take.mpr h1
  · intro hp
    exact hp.trans (List.prefix_append a b)

/-- The sentinel line emitted by the parse actions on success. -/
def sentinel : String := "---ENTITIES_JSON---"

/-! ## Claim C1: `_unwrap_graphql_type` vectors -/

/-- The spec vector `NON_NULL(String)` as an introspection descriptor. -/
def nnStringDesc : Json :=
  .obj [("kind", .str "NON_NULL"), ("name", .null),
        ("ofType", .obj [("kind", .str "SCALAR"), ("name", .str "String"),
                         ("ofType", .null)])]

/-- The spec vector `LIST(NON_NULL(String))`. -/
def listNnStringDesc : Json :=
  .obj [("kind", .str "LIST"), ("name", .null),
        ("ofType", .obj [("kind", .str "NON_NULL"), ("name", .null),
                         ("ofType", .obj [("kind", .str "SCALAR"),
                                          ("name", .str "String")])])]

/-- The spec vector `NON_NULL(LIST(String))`. -/
def nnListStringDesc : Json :=
  .obj [("kind", .str "NON_NULL"), ("name", .null),
        ("ofType", .obj [("kind", .str "LIST"), ("name", .null),
                         ("ofType", .obj [("kind", .str "SCALAR"),
                                          ("name", .str "String")])])]

/-- C1 counterexample: on the empty wrapper descriptor `{}` — a
malformed/empty descriptor in which no concrete type name is ever
found — `_unwrap_graphql_type` returns `("", False)`, not the claimed
`("Unknown", False)`: the `while current:` guard is falsy on an empty
dict, so the loop never runs and the `Unknown` fallback is never
appended. -/
theorem C1_counterexample :
    unwrapGraphqlType (Json.obj []) = some ("", false) ∧
    unwrapGraphqlType (Json.obj []) ≠ some ("Unknown", false) := by
  constructor
  · decide
  · decide

/-- C1 (amended): the three well-formed unwrap vectors hold —
`NON_NULL(String) ↦ ("String", true)`, `LIST(NON_NULL(String)) ↦
("[String]", true)`, `NON_NULL(LIST(String)) ↦ ("[String]", true)` —
and the `Unknown`/`false` fallback holds for a malformed descriptor
that is truthy but has no recognized wrapper kind, no truthy name and
no truthy `ofType` (e.g. `{"kind": "OBJECT"}`); however an empty
descriptor `{}` yields `("", false)`, not `("Unknown", false)`: the
fallback only fires when the loop body actually runs. -/
theorem C1_unwrap_vectors :
    unwrapGraphqlType nnStringDesc = some ("String", true) ∧
    unwrapGraphqlType listNnStringDesc = some ("[String]", true) ∧
    unwrapGraphqlType nnListStringDesc = some ("[String]", true) ∧
    unwrapGraphqlType (Json.obj [("kind", .str "OBJECT")]) =
      some ("Unknown", false) ∧
    unwrapGraphqlType (Json.obj []) = some ("", false) := by
  refine ⟨by decide, by decide, by decide, by decide, by decide⟩

/-! ## Claim C2: `parse_graphql_schema` always returns an error -/

theorem gqlStage_ok_cases (data : Json) (src : String) :
    gqlStage (.ok data) src = .raised ∨ gqlStage (.ok data) src = .noTypes ∨
    ∃ es, gqlStage (.ok data) src = .built es := by
  cases hs : gqlSchemaOf data with
  | error e => simp [gqlStage, hs]
  | ok schema =>
    cases schema with
    | obj entries =>
      by_cases ht : pyTruthy (Json.getD (Json.obj entries) "types" (Json.arr [])) = true
      · cases htv : Json.getD (Json.obj entries) "types" (Json.arr []) with
        | arr tds =>
          cases hm : mapE (fun td => parseGraphqlType td src) tds with
          | error e =>
            rw [htv] at ht
            simp [gqlStage, hs, ht, htv, hm]
          | ok opts =>
            rw [htv] at ht
            exact Or.inr (Or.inr ⟨opts.filterMap id,
              by simp [gqlStage, hs, ht, htv, hm]⟩)
        | null => rw [htv] at ht; simp [gqlStage, hs, ht, htv]
        | bool b => rw [htv] at ht; simp [gqlStage, hs, ht, htv]
        | num n => rw [htv] at ht; simp [gqlStage, hs, ht, htv]
        | str s => rw [htv] at ht; simp [gqlStage, hs, ht, htv]
        | obj kvs => rw [htv] at ht; simp [gqlStage, hs, ht, htv]
      · simp [gqlStage, hs, ht]
    | null => simp [gqlStage, hs]
    | bool b => simp [gqlStage, hs]
    | num n => simp [gqlStage, hs]
    | str s => simp [gqlStage, hs]
    | arr elems => simp [gqlStage, hs]

/-- Every output of `parse_graphql_schema` is one of three error
strings. -/
theorem gql_output_cases (decoded : Except String Json) (src : String) :
    (∃ msg, decoded = .error msg ∧
      parse_graphql_schema decoded src = "ERROR - Invalid JSON: " ++ msg) ∨
    parse_graphql_schema decoded src =
      "ERROR - Failed to parse GraphQL schema: " ++ dictTypeAssignMsg ∨
    parse_graphql_schema decoded src =
      "ERROR - No types found in GraphQL schema. Is this a valid GraphQL instrospection result?" := by
  cases decoded with
  | error msg => exact Or.inl ⟨msg, rfl, rfl⟩
  | ok data =>
    rcases gqlStage_ok_cases data src with h | h | ⟨es, h⟩ <;>
      simp [parse_graphql_schema, h]

theorem gql_error_prefixed (decoded : Except String Json) (src : String) :
    "ERROR".toList <+: (parse_graphql_schema decoded src).toList := by
  rcases gql_output_cases decoded src with ⟨msg, _, heq⟩ | heq | heq <;> rw [heq]
  · rw [toList_append]
    exact (by decide : "ERROR".toList <+: "ERROR - Invalid JSON: ".toList).trans
      (List.prefix_append _ _)
  · decide
  · decide

theorem gql_no_sentinel (decoded : Except String Json) (src : String)
    (hm : ∀ msg, decoded = .error msg → ¬ sentinel.toList <:+: msg.toList) :
    ¬ sentinel.toList <:+: (parse_graphql_schema decoded src).toList := by
  rcases gql_output_cases decoded src with ⟨msg, hd, heq⟩ | heq | heq <;> rw [heq]
  · rw [toList_append]
    exact not_infix_append (by decide) (hm msg hd) (by decide)
  · decide
  · decide

/-- Two prefixes of one string are comparable; `ERROR` and `SUCCESS`
are not, so an `ERROR`-prefixed string is never `SUCCESS`-prefixed. -/
theorem not_success_of_error {s : List Char} (h : "ERROR".toList <+: s) :
    ¬ "SUCCESS".toList <+: s := by
  intro h2
  rcases List.prefix_or_prefix_of_prefix h h2 with h3 | h3 <;> revert h3 <;> decide

/-- C2: for every decode outcome of `raw_schema_json` and every
`source_api`, `parse_graphql_schema` returns (it never propagates an
exception — the model is total) a string that begins with `ERROR`, never
one that begins with `SUCCESS`, and never one containing the
`---ENTITIES_JSON---` sentinel: line 129 (`by_kind = dict[str, list[SchemaEntity]] = {}`,
an item assignment on the builtin `dict` type) raises `TypeError` before
the summary/sentinel lines are built, and the catch-all handler converts
every failure into an error string.  (The hypothesis only excludes a
`json.loads` error message that itself contains the sentinel, which the
stdlib never produces.) -/
theorem C2_parse_graphql_always_error (decoded : Except String Json)
    (source_api : String)
    (hm : ∀ msg, decoded = .error msg → ¬ sentinel.toList <:+: msg.toList) :
    "ERROR".toList <+: (parse_graphql_schema decoded source_api).toList ∧
    ¬ "SUCCESS".toList <+: (parse_graphql_schema decoded source_api).toList ∧
    ¬ sentinel.toList <:+: (parse_graphql_schema decoded source_api).toList := by
  refine ⟨gql_error_prefixed decoded source_api, ?_, gql_no_sentinel decoded source_api hm⟩
  exact not_success_of_error (gql_error_prefixed decoded source_api)

/-- C2 witness: a syntactically valid introspection payload with one
object type still comes back as an `ERROR` string with no sentinel. -/
theorem C2_parse_graphql_always_error_witness :
    "ERROR".toList <+:
      (parse_graphql_schema
        (.ok (.obj [("__schema", .obj [("types",
          .arr [.obj [("name", .str "Query"), ("kind", .str "OBJECT")]])])]))
        "demo").toList ∧
    ¬ "SUCCESS".toList <+:
      (parse_graphql_schema
        (.ok (.obj [("__schema", .obj [("types",
          .arr [.obj [("name", .str "Query"), ("kind", .str "OBJECT")]])])]))
        "demo").toList ∧
    ¬ sentinel.toList <:+:
      (parse_graphql_schema
        (.ok (.obj [("__schema", .obj [("types",
          .arr [.obj [("name", .str "Query"), ("kind", .str "OBJECT")]])])]))
        "demo").toList :=
  C2_parse_graphql_always_error
    (.ok (.obj [("__schema", .obj [("types",
      .arr [.obj [("name", .str "Query"), ("kind", .str "OBJECT")]])])]))
    "demo" (fun _ h => nomatch h)

/-! ## Claim C10: sentinel-payload round-trip -/

theorem fieldFromJson_toJson (f : SchemaField) :
    fieldFromJson (fieldToJson f) = some f := by
  obtain ⟨n, ft, r, d⟩ := f
  cases d <;> rfl

theorem mapO_fieldFromJson_toJson (fs : List SchemaField) :
    mapO fieldFromJson (fs.map fieldToJson) = some fs := by
  induction fs with
  | nil => rfl
  | cons f rest ih => simp [mapO, fieldFromJson_toJson, ih]

theorem entityFromJson_toJson (e : SchemaEntity) :
    entityFromJson (entityToJson e) = some e := by
  obtain ⟨n, k, d, fs, src⟩ := e
  cases d <;>
    simp [entityFromJson, entityToJson, Json.lookup, lookupEntries,
      mapO_fieldFromJson_toJson]

theorem entitiesFromJson_toJson (es : List SchemaEntity) :
    entitiesFromJson (entitiesToJson es) = some es := by
  induction es with
  | nil => rfl
  | cons e rest ih =>
    simp only [entitiesToJson, entitiesFromJson, List.map_cons] at ih ⊢
    simp [mapO, entityFromJson_toJson, ih]

/-- C10: (i) deserializing the serialized entity array recovers the
identical ordered `SchemaEntity` list, for every entity list; (ii) the
JSON payload `parse_openapi_spec` emits after its `---ENTITIES_JSON---`
sentinel line is exactly the serialization of the entity list it built,
and deserializes back to that list; (iii) `parse_graphql_schema` never
emits the sentinel at all (its summary construction raises first), so
the round-trip property is vacuous for the GraphQL action. -/
theorem C10_sentinel_roundtrip :
    (∀ es : List SchemaEntity, entitiesFromJson (entitiesToJson es) = some es) ∧
    (∀ (decoded : Except String Json) (src : String) (es : List SchemaEntity),
      oapiStage decoded src = .built es →
      parseOpenapiPayload decoded src = some (entitiesToJson es) ∧
      entitiesFromJson (entitiesToJson es) = some es) ∧
    (∀ (decoded : Except String Json) (src : String),
      (∀ msg, decoded = .error msg → ¬ sentinel.toList <:+: msg.toList) →
      ¬ sentinel.toList <:+: (parse_graphql_schema decoded src).toList) := by
  refine ⟨entitiesFromJson_toJson, ?_, ?_⟩
  · intro decoded src es h
    refine ⟨?_, entitiesFromJson_toJson es⟩
    simp [parseOpenapiPayload, h]
  · intro decoded src hm
    exact gql_no_sentinel decoded src hm

/-- A one-schema OpenAPI spec used to witness the round-trip. -/
def demoSpec : Json :=
  .obj [("definitions", .obj [("Pet", .obj [
    ("type", .str "object"),
    ("required", .arr [.str "name"]),
    ("properties", .obj [("name", .obj [("type", .str "string")]),
                         ("tag", .obj [("type", .str "string")])])])])]

/-- The entity list `parse_openapi_spec` builds from `demoSpec`. -/
def demoEntities : List SchemaEntity :=
  [⟨"Pet", "OBJECT", none,
    [⟨"name", "String", true, none⟩, ⟨"tag", "String", false, none⟩],
    "petstore"⟩]

/-- C10 witness: the payload for a concrete one-schema spec is the
serialized entity list, and deserializes back to it. -/
theorem C10_sentinel_roundtrip_witness :
    parseOpenapiPayload (.ok demoSpec) "petstore" =
      some (entitiesToJson demoEntities) ∧
    entitiesFromJson (entitiesToJson demoEntities) = some demoEntities :=
  C10_sentinel_roundtrip.2.1 (.ok demoSpec) "petstore" demoEntities (by decide)

/-! ## Claim C3: OpenAPI required-ness is schema-level -/

theorem eqStr_iff {v : Json} {t : String} : v.eqStr t = true ↔ v = .str t := by
  cases v <;> simp [Json.eqStr]

theorem mapE_ok_spec {α β : Type} {f : α → Except Unit β} :
    ∀ {xs : List α} {ys : List β}, mapE f xs = .ok ys →
      ys.length = xs.length ∧
      ∀ i, i < xs.length →
        ∃ x y, xs[i]? = some x ∧ ys[i]? = some y ∧ f x = .ok y := by
  intro xs
  induction xs with
  | nil =>
    intro ys h
    simp only [mapE] at h
    cases h
    exact ⟨rfl, fun i hi => absurd hi (by simp)⟩
  | cons x rest ih =>
    intro ys h
    simp only [mapE] at h
    cases hx : f x with
    | error e => rw [hx] at h; cases h
    | ok y =>
      rw [hx] at h
      cases hr : mapE f rest with
      | error e => rw [hr] at h; cases h
      | ok ys' =>
        rw [hr] at h
        cases h
        obtain ⟨hlen, hpt⟩ := ih hr
        refine ⟨by simp [hlen], ?_⟩
        intro i hi
        cases i with
        | zero => exact ⟨x, y, by simp, by simp, hx⟩
        | succ j =>
          obtain ⟨xj, yj, hxj, hyj, hf⟩ := hpt j (by simpa using hi)
          exact ⟨xj, yj, by simpa using hxj, by simpa using hyj, hf⟩

theorem openapiPropField_ok {req : List Json} {kv : String × Json}
    {f : SchemaField} (h : openapiPropField req kv = .ok f) :
    f.name = kv.1 ∧ f.is_required = req.any (·.eqStr kv.1) := by
  simp only [openapiPropField, bind, Except.bind] at h
  cases hft : parseOpenapiType kv.2 with
  | error e => rw [hft] at h; cases h
  | ok ft =>
    rw [hft] at h
    cases hd : descriptionOf kv.2 with
    | error e => rw [hd] at h; cases h
    | ok d =>
      rw [hd] at h
      cases h
      exact ⟨rfl, rfl⟩

/-- Inverting a successful `_parse_openapi_schema` run: the entity's
field list is the properties-loop output followed by the synthetic enum
fields. -/
theorem parseOpenapiSchema_ok_shape {name src : String}
    {kvs : List (String × Json)} {e : SchemaEntity}
    (hok : parseOpenapiSchema name (.obj kvs) src = .ok e) :
    ∃ reqElems props fields enumFields desc,
      pyIterElems (Json.getD (.obj kvs) "required" (.arr [])) = .ok reqElems ∧
      Json.getD (.obj kvs) "properties" (.obj []) = .obj props ∧
      mapE (openapiPropField reqElems) props = .ok fields ∧
      openapiEnumFields (.obj kvs) = .ok enumFields ∧
      e = ⟨name, classifyOpenapiKind (.obj kvs), desc,
           fields ++ enumFields, src⟩ := by
  simp only [parseOpenapiSchema, bind, Except.bind] at hok
  cases hreq : pyIterElems (Json.getD (.obj kvs) "required" (.arr [])) with
  | error er => simp only [hreq] at hok; cases hok
  | ok reqElems =>
    simp only [hreq] at hok
    cases hp : Json.getD (.obj kvs) "properties" (.obj []) with
    | obj props =>
      simp only [hp] at hok
      cases hf : mapE (openapiPropField reqElems) props with
      | error e2 => simp only [hf] at hok; cases hok
      | ok fields =>
        simp only [hf] at hok
        cases he : openapiEnumFields (.obj kvs) with
        | error e3 => simp only [he] at hok; cases hok
        | ok enumFields =>
          simp only [he] at hok
          cases hd : descriptionOf (.obj kvs) with
          | error e4 => simp only [hd] at hok; cases hok
          | ok desc =>
            simp only [hd] at hok
            cases hok
            exact ⟨reqElems, props, fields, enumFields, desc,
              rfl, rfl, hf, rfl, rfl⟩
    | null => simp only [hp] at hok; cases hok
    | bool b => simp only [hp] at hok; cases hok
    | num n => simp only [hp] at hok; cases hok
    | str s => simp only [hp] at hok; cases hok
    | arr a => simp only [hp] at hok; cases hok

/-- C3: for every OpenAPI schema definition whose `required` value is
the list `reqVals` (absent means `[]`) and whose `properties` are
`props`, each field the builder produces from a property has
`is_required = true` iff the property's NAME appears in `reqVals`; and
required-ness is independent of the property's own definition: two
fields built for the same name under the same required list always
agree on `is_required`, whatever their definitions. -/
theorem C3_required_iff_in_required_list :
    (∀ (name src : String) (schema_def : Json) (reqVals : List Json)
       (props : List (String × Json)) (e : SchemaEntity),
      schema_def.getD "required" (.arr []) = .arr reqVals →
      schema_def.getD "properties" (.obj []) = .obj props →
      parseOpenapiSchema name schema_def src = .ok e →
      ∀ i, (hi : i < props.length) →
        ∃ f : SchemaField, e.fields[i]? = some f ∧
          f.name = (props.get ⟨i, hi⟩).1 ∧
          (f.is_required = true ↔ Json.str (props.get ⟨i, hi⟩).1 ∈ reqVals)) ∧
    (∀ (req : List Json) (n : String) (d₁ d₂ : Json) (f₁ f₂ : SchemaField),
      openapiPropField req (n, d₁) = .ok f₁ →
      openapiPropField req (n, d₂) = .ok f₂ →
      f₁.is_required = f₂.is_required) := by
  constructor
  · intro name src schema_def reqVals props e hreq hprops hok i hi
    cases schema_def with
    | obj kvs =>
      obtain ⟨reqElems, props', fields, enumFields, desc, hreq', hprops', hf, _, he⟩ :=
        parseOpenapiSchema_ok_shape hok
      rw [hprops] at hprops'
      cases hprops'
      rw [hreq] at hreq'
      simp only [pyIterElems] at hreq'
      cases hreq'
      obtain ⟨hlen, hpt⟩ := mapE_ok_spec hf
      obtain ⟨x, y, hx, hy, hfy⟩ := hpt i hi
      obtain ⟨hname, hisreq⟩ := openapiPropField_ok hfy
      refine ⟨y, ?_, ?_, ?_⟩
      · rw [he]
        show (fields ++ enumFields)[i]? = some y
        rw [List.getElem?_append_left (by omega)]
        exact hy
      · rw [hname]
        have : props[i]? = some (props.get ⟨i, hi⟩) := by
          simp [List.getElem?_eq_getElem hi]
        rw [this] at hx
        cases hx
        rfl
      · have : props[i]? = some (props.get ⟨i, hi⟩) := by
          simp [List.getElem?_eq_getElem hi]
        rw [this] at hx
        cases hx
        rw [hisreq]
        simp only [List.any_eq_true]
        constructor
        · rintro ⟨v, hv, hvs⟩
          rw [eqStr_iff.mp hvs] at hv
          exact hv
        · intro hv
          exact ⟨_, hv, eqStr_iff.mpr rfl⟩
    | null => cases hok
    | bool b => cases hok
    | num n => cases hok
    | str s => cases hok
    | arr a => cases hok
  · intro req n d₁ d₂ f₁ f₂ h₁ h₂
    rw [(openapiPropField_ok h₁).2, (openapiPropField_ok h₂).2]

/-- The `Pet` schema definition inside `demoSpec`. -/
def petSchemaDef : Json :=
  .obj [("type", .str "object"),
        ("required", .arr [.str "name"]),
        ("properties", .obj [("name", .obj [("type", .str "string")]),
                             ("tag", .obj [("type", .str "string")])])]

/-- The entity `_parse_openapi_schema` builds from `petSchemaDef`. -/
def petEntity : SchemaEntity :=
  ⟨"Pet", "OBJECT", none,
   [⟨"name", "String", true, none⟩, ⟨"tag", "String", false, none⟩],
   "petstore"⟩

/-- C3 witness: in the concrete `Pet` schema, the field built for the
property `name` is required exactly because `"name"` is in the schema's
`required` list. -/
theorem C3_required_iff_in_required_list_witness :
    ∃ f : SchemaField, petEntity.fields[0]? = some f ∧
      f.name = "name" ∧
      (f.is_required = true ↔ Json.str "name" ∈ [Json.str "name"]) :=
  C3_required_iff_in_required_list.1 "Pet" "petstore" petSchemaDef
    [Json.str "name"]
    [("name", .obj [("type", .str "string")]), ("tag", .obj [("type", .str "string")])]
    petEntity rfl rfl rfl 0 (by decide)

/-! ## Claim C4: the OpenAPI type resolver -/

/-- C4 counterexample: for an array property with a primitive item type,
`_parse_openapi_type` wraps the RAW item type value — `item_type =
items.get("type", "object")` is not passed through `type_mapping` — so
`{"type": "array", "items": {"type": "string"}}` resolves to
`"[string]"`, not the claimed `"[String]"`. -/
theorem C4_counterexample :
    parseOpenapiType (.obj [("type", .str "array"),
      ("items", .obj [("type", .str "string")])]) = .ok "[string]" ∧
    parseOpenapiType (.obj [("type", .str "array"),
      ("items", .obj [("type", .str "string")])]) ≠ .ok "[String]" :=
  ⟨rfl, fun h => absurd (Except.ok.inj h) (by decide)⟩

/-- C4 (amended): a `$ref` resolves to the final path segment of the
reference string (`"#/components/schemas/Pet" ↦ "Pet"`); an array
property resolves its items — a `$ref` item to its final path segment
(so `{"type":"array","items":{"$ref":"#/definitions/Pet"}} ↦ "[Pet]"`),
a primitive item to its RAW `type` value (the primitive mapping is NOT
applied inside arrays: `{"type":"array","items":{"type":"string"}} ↦
"[string]"`) — wrapped as `[<itemType>]`; the mapping `string→String`,
`integer→Int`, `number→Float`, `boolean→Boolean`, `object→Object`
applies only to non-array top-level types. -/
theorem C4_type_resolution :
    resolveOpenapiRef "#/components/schemas/Pet" = "Pet" ∧
    parseOpenapiType (.obj [("type", .str "array"),
      ("items", .obj [("$ref", .str "#/definitions/Pet")])]) = .ok "[Pet]" ∧
    (∀ (kvs : List (String × Json)) (r : String),
      Json.lookup (.obj kvs) "$ref" = some (.str r) →
      parseOpenapiType (.obj kvs) = .ok (resolveOpenapiRef r)) ∧
    (∀ (kvs ikvs : List (String × Json)) (r : String),
      Json.lookup (.obj kvs) "$ref" = none →
      Json.getD (.obj kvs) "type" (.str "object") = .str "array" →
      Json.getD (.obj kvs) "items" (.obj []) = .obj ikvs →
      Json.lookup (.obj ikvs) "$ref" = some (.str r) →
      parseOpenapiType (.obj kvs) = .ok ("[" ++ resolveOpenapiRef r ++ "]")) ∧
    (∀ (kvs ikvs : List (String × Json)) (t : String),
      Json.lookup (.obj kvs) "$ref" = none →
      Json.getD (.obj kvs) "type" (.str "object") = .str "array" →
      Json.getD (.obj kvs) "items" (.obj []) = .obj ikvs →
      Json.lookup (.obj ikvs) "$ref" = none →
      Json.getD (.obj ikvs) "type" (.str "object") = .str t →
      parseOpenapiType (.obj kvs) = .ok ("[" ++ t ++ "]")) ∧
    parseOpenapiType (.obj [("type", .str "string")]) = .ok "String" ∧
    parseOpenapiType (.obj [("type", .str "integer")]) = .ok "Int" ∧
    parseOpenapiType (.obj [("type", .str "number")]) = .ok "Float" ∧
    parseOpenapiType (.obj [("type", .str "boolean")]) = .ok "Boolean" ∧
    parseOpenapiType (.obj [("type", .str "object")]) = .ok "Object" ∧
    parseOpenapiType (.obj [("type", .str "customThing")]) = .ok "customThing" := by
  refine ⟨by decide, rfl, ?_, ?_, ?_, rfl, rfl, rfl, rfl, rfl, rfl⟩
  · intro kvs r h
    simp [parseOpenapiType, h]
  · intro kvs ikvs r h1 h2 h3 h4
    simp only [parseOpenapiType, h1, h2, h3]
    simp [h4, Json.eqStr]
  · intro kvs ikvs t h1 h2 h3 h4 h5
    simp only [parseOpenapiType, h1, h2, h3]
    simp [h4, h5, Json.eqStr, pyStrScalar]

/-- C4 witness: the general `$ref` and array rules at concrete inputs. -/
theorem C4_type_resolution_witness :
    parseOpenapiType (.obj [("$ref", .str "#/components/schemas/Tag")]) =
      .ok (resolveOpenapiRef "#/components/schemas/Tag") :=
  C4_type_resolution.2.2.1 [("$ref", .str "#/components/schemas/Tag")]
    "#/components/schemas/Tag" rfl

/-! ## Claim C5: OpenAPI entity-kind classification -/

/-- C5 counterexample: a schema with `allOf` but no `enum`, no `type`
and no `properties` is classified `OBJECT`, not the claimed `COMPOSITE`:
`schema_def.get("type", "object")` defaults the MISSING `type` key to
`"object"`, so the `OBJECT` branch fires before `allOf` is consulted. -/
theorem C5_counterexample :
    parseOpenapiSchema "Mix" (.obj [("allOf", .arr [])]) "api" =
      .ok ⟨"Mix", "OBJECT", none, [], "api"⟩ ∧
    classifyOpenapiKind (.obj [("allOf", .arr [])]) ≠ "COMPOSITE" :=
  ⟨rfl, by decide⟩

/-- C5 (amended): classification is total with values in
`{OBJECT, ENUM, COMPOSITE}` and follows the priority order: `enum`
present ⇒ `ENUM`; else `type == "object"` — where a MISSING `type` key
defaults to `"object"` — or `properties` present ⇒ `OBJECT`; else
`allOf` present ⇒ `COMPOSITE`; else `OBJECT`.  Consequently a schema
with `allOf` but no `enum`/`properties` is `COMPOSITE` only when it
carries an explicit `type` other than `"object"`; with no `type` key at
all it is `OBJECT`. -/
theorem C5_kind_classification :
    (∀ s : Json, classifyOpenapiKind s = "OBJECT" ∨
      classifyOpenapiKind s = "ENUM" ∨ classifyOpenapiKind s = "COMPOSITE") ∧
    (∀ s : Json, (s.lookup "enum").isSome → classifyOpenapiKind s = "ENUM") ∧
    (∀ s : Json, s.lookup "enum" = none →
      ((s.getD "type" (.str "object")).eqStr "object" = true ∨
        (s.lookup "properties").isSome) →
      classifyOpenapiKind s = "OBJECT") ∧
    (∀ s : Json, s.lookup "enum" = none →
      (s.getD "type" (.str "object")).eqStr "object" = false →
      s.lookup "properties" = none → (s.lookup "allOf").isSome →
      classifyOpenapiKind s = "COMPOSITE") ∧
    (∀ s : Json, s.lookup "enum" = none →
      (s.getD "type" (.str "object")).eqStr "object" = false →
      s.lookup "properties" = none → s.lookup "allOf" = none →
      classifyOpenapiKind s = "OBJECT") ∧
    (∀ s : Json, s.lookup "type" = none → s.lookup "enum" = none →
      classifyOpenapiKind s = "OBJECT") ∧
    classifyOpenapiKind (.obj [("type", .null), ("allOf", .arr [])]) =
      "COMPOSITE" := by
  refine ⟨?_, ?_, ?_, ?_, ?_, ?_, by decide⟩
  · intro s
    by_cases h1 : ((s.lookup "enum").isSome = true)
    · simp [classifyOpenapiKind, h1]
    · by_cases h2 : (((s.getD "type" (Json.str "object")).eqStr "object" ||
          (s.lookup "properties").isSome) = true)
      · simp [classifyOpenapiKind, h1, h2]
      · by_cases h3 : ((s.lookup "allOf").isSome = true)
        · simp [classifyOpenapiKind, h1, h2, h3]
        · simp [classifyOpenapiKind, h1, h2, h3]
  · intro s h
    simp [classifyOpenapiKind, h]
  · intro s he hcond
    rcases hcond with h | h <;> simp [classifyOpenapiKind, he, h]
  · intro s he ht hp ha
    simp [classifyOpenapiKind, he, ht, hp, ha]
  · intro s he ht hp ha
    simp [classifyOpenapiKind, he, ht, hp, ha]
  · intro s ht he
    simp [classifyOpenapiKind, Json.getD, he, ht, Json.eqStr]

/-- C5 witness: the priority rules at concrete schemas — an enum schema,
a propertyless typeless schema, and a `COMPOSITE` one. -/
theorem C5_kind_classification_witness :
    classifyOpenapiKind (.obj [("enum", .arr [.str "A"]), ("allOf", .arr [])]) =
      "ENUM" ∧
    classifyOpenapiKind (.obj [("allOf", .arr [])]) = "OBJECT" ∧
    classifyOpenapiKind (.obj [("type", .str "composite"), ("allOf", .arr [])]) =
      "COMPOSITE" :=
  ⟨C5_kind_classification.2.1 (.obj [("enum", .arr [.str "A"]), ("allOf", .arr [])])
      (by decide),
   C5_kind_classification.2.2.2.2.2.1 (.obj [("allOf", .arr [])]) rfl rfl,
   C5_kind_classification.2.2.2.1 (.obj [("type", .str "composite"),
      ("allOf", .arr [])]) rfl (by decide) rfl (by decide)⟩

/-! ## Claim C6: what the entity builder filters out

The claim quantifies over "GraphQL type definitions" and "OpenAPI schema
definitions"; the Boolean well-formedness predicates below capture those
shapes (dict inputs whose relevant members have the types the formats
prescribe).  On them the builders never raise, so `none` (GraphQL) /
success (OpenAPI) is decided purely by the filtering logic. -/

def strOrAbsent (p : Json) (k : String) : Bool :=
  match p.lookup k with
  | none => true
  | some (.str _) => true
  | some _ => false

def nullStrOrAbsent (p : Json) (k : String) : Bool :=
  match p.lookup k with
  | none => true
  | some .null => true
  | some (.str _) => true
  | some _ => false

def jsonScalar : Json → Bool
  | .arr _ => false
  | .obj _ => false
  | _ => true

/-- Well-formed introspection field entry. -/
def gqlFieldWF (f : Json) : Bool :=
  match f with
  | .obj _ => strOrAbsent f "name" && nullStrOrAbsent f "description" &&
      (unwrapGraphqlType (f.getD "type" (.obj []))).isSome
  | _ => false

/-- Well-formed introspection enum-value entry. -/
def gqlEvWF (ev : Json) : Bool :=
  match ev with
  | .obj _ => strOrAbsent ev "name" && nullStrOrAbsent ev "description"
  | _ => false

/-- Well-formed GraphQL type definition. -/
def gqlTypeWF (td : Json) : Bool :=
  match td with
  | .obj _ =>
    strOrAbsent td "name" && strOrAbsent td "kind" &&
    nullStrOrAbsent td "description" &&
    (match gqlRawFields td with
     | .arr fs => fs.all gqlFieldWF
     | _ => false) &&
    (match orEmptyList (td.getD "enumValues" .null) with
     | .arr evs => evs.all gqlEvWF
     | _ => false)
  | _ => false

/-- `name = type_def.get("name", "")` for a well-formed definition. -/
def gqlNameOf (td : Json) : String :=
  match td.lookup "name" with
  | some (.str s) => s
  | _ => ""

/-- Well-formed OpenAPI property definition. -/
def propDefWF (p : Json) : Bool :=
  match p with
  | .obj _ =>
    strOrAbsent p "$ref" && strOrAbsent p "type" &&
    (match p.lookup "items" with
     | none => true
     | some it =>
       match it with
       | .obj _ => strOrAbsent it "$ref" && strOrAbsent it "type"
       | _ => false) &&
    nullStrOrAbsent p "description"
  | _ => false

/-- Well-formed OpenAPI schema definition. -/
def openapiSchemaWF (s : Json) : Bool :=
  match s with
  | .obj _ =>
    (match s.lookup "required" with
     | none => true
     | some (.arr _) => true
     | _ => false) &&
    (match s.lookup "properties" with
     | none => true
     | some (.obj kvs) => kvs.all fun kv => propDefWF kv.2
     | some _ => false) &&
    (match s.lookup "enum" with
     | none => true
     | some (.arr vs) => vs.all jsonScalar
     | some _ => false) &&
    nullStrOrAbsent s "description"
  | _ => false

theorem mapE_ok_of_forall {α β : Type} {f : α → Except Unit β} :
    ∀ {xs : List α}, (∀ x ∈ xs, ∃ y, f x = .ok y) →
      ∃ ys, mapE f xs = .ok ys := by
  intro xs
  induction xs with
  | nil => exact fun _ => ⟨[], rfl⟩
  | cons x rest ih =>
    intro h
    obtain ⟨y, hy⟩ := h x (by simp)
    obtain ⟨ys, hys⟩ := ih fun z hz => h z (by simp [hz])
    exact ⟨y :: ys, by simp [mapE, hy, hys]⟩

theorem descriptionOf_ok {p : Json} (h : nullStrOrAbsent p "description" = true) :
    ∃ d, descriptionOf p = .ok d := by
  unfold nullStrOrAbsent at h
  unfold descriptionOf
  cases hd : p.lookup "description" with
  | none => exact ⟨none, rfl⟩
  | some v =>
    rw [hd] at h
    cases v with
    | null => exact ⟨none, rfl⟩
    | str s => exact ⟨some s, rfl⟩
    | bool b => cases h
    | num n => cases h
    | arr a => cases h
    | obj o => cases h

theorem parseGraphqlField_ok {f : Json} (h : gqlFieldWF f = true) :
    ∃ y, parseGraphqlField f = .ok y := by
  cases f with
  | obj kvs =>
    simp only [gqlFieldWF, Bool.and_eq_true] at h
    obtain ⟨⟨hname, hdesc⟩, hunwrap⟩ := h
    obtain ⟨⟨tn, req⟩, hu⟩ := Option.isSome_iff_exists.mp hunwrap
    obtain ⟨d, hd⟩ := descriptionOf_ok hdesc
    simp only [parseGraphqlField, hu, hd, bind, Except.bind]
    unfold strOrAbsent at hname
    cases hn : Json.lookup (.obj kvs) "name" with
    | none => exact ⟨_, rfl⟩
    | some v =>
      rw [hn] at hname
      cases v with
      | str s => exact ⟨_, rfl⟩
      | null => cases hname
      | bool b => cases hname
      | num n => cases hname
      | arr a => cases hname
      | obj o => cases hname
  | null => cases h
  | bool b => cases h
  | num n => cases h
  | str s => cases h
  | arr a => cases h

theorem parseGraphqlEnumValue_ok {ev : Json} (h : gqlEvWF ev = true) :
    ∃ y, parseGraphqlEnumValue ev = .ok y := by
  cases ev with
  | obj kvs =>
    simp only [gqlEvWF, Bool.and_eq_true] at h
    obtain ⟨hname, hdesc⟩ := h
    obtain ⟨d, hd⟩ := descriptionOf_ok hdesc
    simp only [parseGraphqlEnumValue, hd, bind, Except.bind]
    unfold strOrAbsent at hname
    cases hn : Json.lookup (.obj kvs) "name" with
    | none => exact ⟨_, rfl⟩
    | some v =>
      rw [hn] at hname
      cases v with
      | str s => exact ⟨_, rfl⟩
      | null => cases hname
      | bool b => cases hname
      | num n => cases hname
      | arr a => cases hname
      | obj o => cases hname
  | null => cases h
  | bool b => cases h
  | num n => cases h
  | str s => cases h
  | arr a => cases h

theorem parseGraphqlType_ok_some {td : Json} {src : String}
    (hwf : gqlTypeWF td = true)
    (hns : (td.getD "kind" (.str "UNKNOWN")).eqStr "SCALAR" = false)
    (hnp : strHasPrefix (gqlNameOf td) "__" = false) :
    ∃ e, parseGraphqlType td src = .ok (some e) := by
  cases td with
  | obj kvs =>
    simp only [gqlTypeWF, Bool.and_eq_true] at hwf
    obtain ⟨⟨⟨⟨hname, hkind⟩, hdesc⟩, hfields⟩, hevs⟩ := hwf
    obtain ⟨d, hd⟩ := descriptionOf_ok hdesc
    -- the properties loop succeeds
    have hfs : ∃ ys, mapJsonArr parseGraphqlField (gqlRawFields (.obj kvs)) = .ok ys := by
      cases hrf : gqlRawFields (.obj kvs) with
      | arr fs =>
        rw [hrf] at hfields
        simp only [List.all_eq_true] at hfields
        obtain ⟨ys, hys⟩ := mapE_ok_of_forall
          (fun x hx => parseGraphqlField_ok (hfields x hx))
        exact ⟨ys, by simp [mapJsonArr, hys]⟩
      | null => rw [hrf] at hfields; cases hfields
      | bool b => rw [hrf] at hfields; cases hfields
      | num n => rw [hrf] at hfields; cases hfields
      | str s => rw [hrf] at hfields; cases hfields
      | obj o => rw [hrf] at hfields; cases hfields
    obtain ⟨fields, hfieldsOk⟩ := hfs
    have hev : ∃ ys, mapJsonArr parseGraphqlEnumValue
        (orEmptyList (Json.getD (.obj kvs) "enumValues" .null)) = .ok ys := by
      cases hrf : orEmptyList (Json.getD (.obj kvs) "enumValues" .null) with
      | arr evs =>
        rw [hrf] at hevs
        simp only [List.all_eq_true] at hevs
        obtain ⟨ys, hys⟩ := mapE_ok_of_forall
          (fun x hx => parseGraphqlEnumValue_ok (hevs x hx))
        exact ⟨ys, by simp [mapJsonArr, hys]⟩
      | null => rw [hrf] at hevs; cases hevs
      | bool b => rw [hrf] at hevs; cases hevs
      | num n => rw [hrf] at hevs; cases hevs
      | str s => rw [hrf] at hevs; cases hevs
      | obj o => rw [hrf] at hevs; cases hevs
    obtain ⟨evFields, hevOk⟩ := hev
    simp only [Json.getD] at hevOk
    unfold strOrAbsent at hname hkind
    cases hn : Json.lookup (.obj kvs) "name" with
    | none =>
      simp only [gqlNameOf, hn] at hnp
      simp only [parseGraphqlType, hn, bind, Except.bind, hnp]
      rw [if_neg (by simp [hnp])]
      rw [if_neg (by simp [hns])]
      cases hk : Json.lookup (.obj kvs) "kind" with
      | none =>
        simp only [Json.getD, hk, Option.getD_none, hfieldsOk, hevOk, hd]
        exact ⟨_, rfl⟩
      | some v =>
        rw [hk] at hkind
        cases v with
        | str s =>
          simp only [Json.getD, hk, Option.getD_some, hfieldsOk, hevOk, hd]
          exact ⟨_, rfl⟩
        | null => cases hkind
        | bool b => cases hkind
        | num n => cases hkind
        | arr a => cases hkind
        | obj o => cases hkind
    | some v =>
      rw [hn] at hname
      cases v with
      | str s =>
        simp only [gqlNameOf, hn] at hnp
        simp only [parseGraphqlType, hn, bind, Except.bind]
        rw [if_neg (by simp [hnp])]
        rw [if_neg (by simp [hns])]
        cases hk : Json.lookup (.obj kvs) "kind" with
        | none =>
          simp only [Json.getD, hk, Option.getD_none, hfieldsOk, hevOk, hd]
          exact ⟨_, rfl⟩
        | some v2 =>
          rw [hk] at hkind
          cases v2 with
          | str s2 =>
            simp only [Json.getD, hk, Option.getD_some, hfieldsOk, hevOk, hd]
            exact ⟨_, rfl⟩
          | null => cases hkind
          | bool b => cases hkind
          | num n => cases hkind
          | arr a => cases hkind
          | obj o => cases hkind
      | null => cases hname
      | bool b => cases hname
      | num n => cases hname
      | arr a => cases hname
      | obj o => cases hname
  | null => cases hwf
  | bool b => cases hwf
  | num n => cases hwf
  | str s => cases hwf
  | arr a => cases hwf

theorem parseGraphqlType_filtered {td : Json} {src : String}
    (hwf : gqlTypeWF td = true)
    (h : strHasPrefix (gqlNameOf td) "__" = true ∨
         (td.getD "kind" (.str "UNKNOWN")).eqStr "SCALAR" = true) :
    parseGraphqlType td src = .ok none := by
  cases td with
  | obj kvs =>
    have hname : strOrAbsent (.obj kvs) "name" = true := by
      simp only [gqlTypeWF, Bool.and_eq_true] at hwf
      exact hwf.1.1.1.1
    unfold strOrAbsent at hname
    cases hn : Json.lookup (.obj kvs) "name" with
    | none =>
      simp only [gqlNameOf, hn] at h
      simp only [parseGraphqlType, hn, bind, Except.bind]
      rcases h with h | h
      · rw [if_pos h]
      · rw [if_neg (by decide), if_pos h]
    | some v =>
      rw [hn] at hname
      cases v with
      | str s =>
        simp only [gqlNameOf, hn] at h
        simp only [parseGraphqlType, hn, bind, Except.bind]
        rcases h with h | h
        · rw [if_pos h]
        · by_cases hp : strHasPrefix s "__" = true
          · rw [if_pos hp]
          · rw [if_neg hp, if_pos h]
      | null => cases hname
      | bool b => cases hname
      | num n => cases hname
      | arr a => cases hname
      | obj o => cases hname
  | null => cases hwf
  | bool b => cases hwf
  | num n => cases hwf
  | str s => cases hwf
  | arr a => cases hwf

theorem pyStrScalar_ok {v : Json} (h : jsonScalar v = true) :
    ∃ s, pyStrScalar v = .ok s := by
  cases v with
  | null => exact ⟨_, rfl⟩
  | bool b => cases b <;> exact ⟨_, rfl⟩
  | num n => exact ⟨_, rfl⟩
  | str s => exact ⟨_, rfl⟩
  | arr a => cases h
  | obj o => cases h

theorem parseOpenapiType_ok {p : Json} (h : propDefWF p = true) :
    ∃ t, parseOpenapiType p = .ok t := by
  cases p with
  | obj kvs =>
    simp only [propDefWF, Bool.and_eq_true] at h
    obtain ⟨⟨⟨href, htype⟩, hitems⟩, _⟩ := h
    unfold strOrAbsent at href htype
    cases hr : Json.lookup (.obj kvs) "$ref" with
    | some v =>
      rw [hr] at href
      cases v with
      | str r =>
        refine ⟨resolveOpenapiRef r, ?_⟩
        simp [parseOpenapiType, hr]
      | null => cases href
      | bool b => cases href
      | num n => cases href
      | arr a => cases href
      | obj o => cases href
    | none =>
      have htype' : ∃ t : String,
          Json.getD (.obj kvs) "type" (.str "object") = .str t := by
        cases hl : Json.lookup (.obj kvs) "type" with
        | none => exact ⟨"object", by simp [Json.getD, hl]⟩
        | some v =>
          rw [hl] at htype
          cases v with
          | str t => exact ⟨t, by simp [Json.getD, hl]⟩
          | null => cases htype
          | bool b => cases htype
          | num n => cases htype
          | arr a => cases htype
          | obj o => cases htype
      obtain ⟨t, ht⟩ := htype'
      by_cases harr : t = "array"
      · subst harr
        -- the items branch
        have hitemsObj : ∃ ikvs, Json.getD (.obj kvs) "items" (.obj []) = .obj ikvs ∧
            strOrAbsent (.obj ikvs) "$ref" = true ∧
            strOrAbsent (.obj ikvs) "type" = true := by
          cases hi : Json.lookup (.obj kvs) "items" with
          | none => exact ⟨[], by simp [Json.getD, hi], rfl, rfl⟩
          | some it =>
            rw [hi] at hitems
            cases it with
            | obj ikvs =>
              simp only [Bool.and_eq_true] at hitems
              exact ⟨ikvs, by simp [Json.getD, hi], hitems.1, hitems.2⟩
            | null => cases hitems
            | bool b => cases hitems
            | num n => cases hitems
            | str s => cases hitems
            | arr a => cases hitems
        obtain ⟨ikvs, hik, hiref, hitype⟩ := hitemsObj
        unfold strOrAbsent at hiref hitype
        simp only [parseOpenapiType, hr, ht, hik]
        cases hir : Json.lookup (.obj ikvs) "$ref" with
        | some v =>
          rw [hir] at hiref
          cases v with
          | str r => simp [Json.eqStr, hir]
          | null => cases hiref
          | bool b => cases hiref
          | num n => cases hiref
          | arr a => cases hiref
          | obj o => cases hiref
        | none =>
          cases hil : Json.lookup (.obj ikvs) "type" with
          | none => simp [Json.eqStr, hir, Json.getD, hil, pyStrScalar]
          | some v =>
            rw [hil] at hitype
            cases v with
            | str it => simp [Json.eqStr, hir, Json.getD, hil, pyStrScalar]
            | null => cases hitype
            | bool b => cases hitype
            | num n => cases hitype
            | arr a => cases hitype
            | obj o => cases hitype
      · refine ⟨(([("string", "String"), ("integer", "Int"), ("number", "Float"),
            ("boolean", "Boolean"), ("object", "Object")] :
            List (String × String)).lookup t).getD t, ?_⟩
        simp only [parseOpenapiType, hr, ht]
        rw [if_neg (by simp [Json.eqStr, harr])]
  | null => cases h
  | bool b => cases h
  | num n => cases h
  | str s => cases h
  | arr a => cases h

theorem openapiPropField_ok_of_WF {req : List Json} {kv : String × Json}
    (h : propDefWF kv.2 = true) :
    ∃ f, openapiPropField req kv = .ok f := by
  obtain ⟨t, ht⟩ := parseOpenapiType_ok h
  have hdesc : nullStrOrAbsent kv.2 "description" = true := by
    cases hv : kv.2 with
    | obj o =>
      rw [hv] at h
      simp only [propDefWF, Bool.and_eq_true] at h
      exact h.2
    | null => rw [hv] at h; cases h
    | bool b => rw [hv] at h; cases h
    | num n => rw [hv] at h; cases h
    | str s => rw [hv] at h; cases h
    | arr a => rw [hv] at h; cases h
  obtain ⟨d, hd⟩ := descriptionOf_ok hdesc
  refine ⟨⟨kv.1, t, req.any (·.eqStr kv.1), d⟩, ?_⟩
  simp [openapiPropField, ht, hd, bind, Except.bind]

theorem openapiEnumFields_ok {s : Json}
    (h : (match s.lookup "enum" with
          | none => true
          | some (.arr vs) => vs.all jsonScalar
          | some _ => false) = true) :
    ∃ fs, openapiEnumFields s = .ok fs := by
  cases he : s.lookup "enum" with
  | none => exact ⟨[], by simp [openapiEnumFields, he]⟩
  | some v =>
    rw [he] at h
    cases v with
    | arr vs =>
      simp only [List.all_eq_true] at h
      obtain ⟨ys, hys⟩ := mapE_ok_of_forall (f := fun v => do
          let nm ← pyStrScalar v
          Except.ok (⟨nm, "ENUM_VALUE", true, none⟩ : SchemaField))
        (fun x hx => by
          obtain ⟨nm, hnm⟩ := pyStrScalar_ok (h x hx)
          refine ⟨⟨nm, "ENUM_VALUE", true, none⟩, ?_⟩
          simp [hnm, bind, Except.bind])
      refine ⟨ys, ?_⟩
      simp only [openapiEnumFields, he, pyIterElems, bind, Except.bind]
      exact hys
    | null => cases h
    | bool b => cases h
    | num n => cases h
    | str st => cases h
    | obj o => cases h

theorem parseOpenapiSchema_ok_of_WF {name src : String} {s : Json}
    (h : openapiSchemaWF s = true) :
    ∃ e, parseOpenapiSchema name s src = .ok e := by
  cases s with
  | obj kvs =>
    simp only [openapiSchemaWF, Bool.and_eq_true] at h
    obtain ⟨⟨⟨hreq, hprops⟩, henum⟩, hdesc⟩ := h
    have hreqOk : ∃ rs, pyIterElems (Json.getD (.obj kvs) "required" (.arr [])) =
        .ok rs := by
      cases hl : Json.lookup (.obj kvs) "required" with
      | none => exact ⟨[], by simp [Json.getD, hl, pyIterElems]⟩
      | some v =>
        rw [hl] at hreq
        cases v with
        | arr vs => exact ⟨vs, by simp [Json.getD, hl, pyIterElems]⟩
        | null => cases hreq
        | bool b => cases hreq
        | num n => cases hreq
        | str st => cases hreq
        | obj o => cases hreq
    obtain ⟨reqElems, hreqOk⟩ := hreqOk
    have hpropsOk : ∃ props : List (String × Json),
        Json.getD (.obj kvs) "properties" (.obj []) = .obj props ∧
        props.all (fun kv => propDefWF kv.2) = true := by
      cases hl : Json.lookup (.obj kvs) "properties" with
      | none => exact ⟨[], by simp [Json.getD, hl], rfl⟩
      | some v =>
        rw [hl] at hprops
        cases v with
        | obj props => exact ⟨props, by simp [Json.getD, hl], hprops⟩
        | null => cases hprops
        | bool b => cases hprops
        | num n => cases hprops
        | str st => cases hprops
        | arr a => cases hprops
    obtain ⟨props, hpropsEq, hpropsWF⟩ := hpropsOk
    simp only [List.all_eq_true] at hpropsWF
    obtain ⟨fields, hfields⟩ := mapE_ok_of_forall
      (f := openapiPropField reqElems)
      (fun kv hkv => openapiPropField_ok_of_WF (hpropsWF kv hkv))
    obtain ⟨enumFields, henumOk⟩ := openapiEnumFields_ok (s := .obj kvs) henum
    obtain ⟨d, hd⟩ := descriptionOf_ok hdesc
    refine ⟨⟨name, classifyOpenapiKind (.obj kvs), d, fields ++ enumFields, src⟩, ?_⟩
    simp only [parseOpenapiSchema, bind, Except.bind, hreqOk, hpropsEq, hfields,
      henumOk, hd]
  | null => cases h
  | bool b => cases h
  | num n => cases h
  | str st => cases h
  | arr a => cases h

/-- C6: for well-formed inputs the builder returns `none` exactly for
GraphQL types whose name is introspection-internal (`__`-prefixed) or
whose kind is `SCALAR`; every other GraphQL type definition yields an
entity, and every OpenAPI schema definition yields an entity — OpenAPI
inputs are never filtered out. -/
theorem C6_builder_filtering :
    (∀ (td : Json) (src : String), gqlTypeWF td = true →
      (parseGraphqlType td src = .ok none ↔
        strHasPrefix (gqlNameOf td) "__" = true ∨
        (td.getD "kind" (.str "UNKNOWN")).eqStr "SCALAR" = true) ∧
      (strHasPrefix (gqlNameOf td) "__" = false →
       (td.getD "kind" (.str "UNKNOWN")).eqStr "SCALAR" = false →
       ∃ e, parseGraphqlType td src = .ok (some e))) ∧
    (∀ (name src : String) (s : Json), openapiSchemaWF s = true →
      ∃ e, parseOpenapiSchema name s src = .ok e) := by
  constructor
  · intro td src hwf
    constructor
    · constructor
      · intro hnone
        by_contra hcon
        push_neg at hcon
        obtain ⟨h1, h2⟩ := hcon
        obtain ⟨e, he⟩ := parseGraphqlType_ok_some hwf
          (Bool.not_eq_true _ ▸ (by simpa using h2))
          (Bool.not_eq_true _ ▸ (by simpa using h1))
        rw [hnone] at he
        cases he
      · exact parseGraphqlType_filtered hwf
    · intro h1 h2
      exact parseGraphqlType_ok_some hwf h2 h1
  · intro name src s h
    exact parseOpenapiSchema_ok_of_WF h

/-- C6 witness: a scalar type is filtered, an object type is not, and a
concrete OpenAPI schema always builds. -/
theorem C6_builder_filtering_witness :
    (parseGraphqlType (.obj [("name", .str "DateTime"), ("kind", .str "SCALAR")])
      "api" = .ok none) ∧
    (∃ e, parseGraphqlType (.obj [("name", .str "Query"), ("kind", .str "OBJECT")])
      "api" = .ok (some e)) ∧
    (∃ e, parseOpenapiSchema "Pet" petSchemaDef "api" = .ok e) :=
  ⟨(C6_builder_filtering.1 (.obj [("name", .str "DateTime"),
      ("kind", .str "SCALAR")]) "api" (by decide)).1.mpr (Or.inr (by decide)),
   (C6_builder_filtering.1 (.obj [("name", .str "Query"),
      ("kind", .str "OBJECT")]) "api" (by decide)).2 (by decide) (by decide),
   C6_builder_filtering.2 "Pet" "api" petSchemaDef (by decide)⟩

/-! ## Claim C7: the GraphQL probe's classification -/

theorem prefix_extend {p a : List Char} (b : List Char) (h : p <+: a) :
    p <+: a ++ b :=
  h.trans (List.prefix_append a b)

theorem prefix_head {p s : List Char} (h : p <+: s) (hne : p ≠ []) :
    s.head? = p.head? := by
  obtain ⟨t, rfl⟩ := h
  cases p with
  | nil => simp at hne
  | cons c cs => rfl

theorem not_prefix_of_head_ne {p q s : List Char} (hp : p <+: s) (hpne : p ≠ [])
    (hqne : q ≠ []) (hne : q.head? ≠ p.head?) : ¬ q <+: s := fun hq =>
  hne ((prefix_head hq hqne).symm.trans (prefix_head hp hpne))

/-- The four result prefixes of the probe's protocol. -/
def probePrefixes : List String := ["YES", "MAYBE", "NO", "ERROR"]

/-- A string carrying one of the four prefixes carries exactly one (the
four start with distinct letters). -/
theorem probeClass_count (r : String)
    (h : "YES".toList <+: r.toList ∨ "MAYBE".toList <+: r.toList ∨
         "NO".toList <+: r.toList ∨ "ERROR".toList <+: r.toList) :
    probePrefixes.countP (fun p => p.toList.isPrefixOf r.toList) = 1 := by
  have count4 : ∀ b₁ b₂ b₃ b₄ : Bool,
      probePrefixes.countP (fun p => p.toList.isPrefixOf r.toList) =
        (if "YES".toList.isPrefixOf r.toList then 1 else 0) +
        ((if "MAYBE".toList.isPrefixOf r.toList then 1 else 0) +
         ((if "NO".toList.isPrefixOf r.toList then 1 else 0) +
          (if "ERROR".toList.isPrefixOf r.toList then 1 else 0))) := by
    intro _ _ _ _
    simp [probePrefixes, List.countP_cons, Nat.add_comm, Nat.add_assoc]
  rw [count4 true true true true]
  rcases h with h | h | h | h
  · rw [if_pos (List.isPrefixOf_iff_prefix.mpr h),
      if_neg (by rw [List.isPrefixOf_iff_prefix]
                 exact not_prefix_of_head_ne h (by decide) (by decide) (by decide)),
      if_neg (by rw [List.isPrefixOf_iff_prefix]
                 exact not_prefix_of_head_ne h (by decide) (by decide) (by decide)),
      if_neg (by rw [List.isPrefixOf_iff_prefix]
                 exact not_prefix_of_head_ne h (by decide) (by decide) (by decide))]
  · rw [if_neg (by rw [List.isPrefixOf_iff_prefix]
                   exact not_prefix_of_head_ne h (by decide) (by decide) (by decide)),
      if_pos (List.isPrefixOf_iff_prefix.mpr h),
      if_neg (by rw [List.isPrefixOf_iff_prefix]
                 exact not_prefix_of_head_ne h (by decide) (by decide) (by decide)),
      if_neg (by rw [List.isPrefixOf_iff_prefix]
                 exact not_prefix_of_head_ne h (by decide) (by decide) (by decide))]
  · rw [if_neg (by rw [List.isPrefixOf_iff_prefix]
                   exact not_prefix_of_head_ne h (by decide) (by decide) (by decide)),
      if_neg (by rw [List.isPrefixOf_iff_prefix]
                 exact not_prefix_of_head_ne h (by decide) (by decide) (by decide)),
      if_pos (List.isPrefixOf_iff_prefix.mpr h),
      if_neg (by rw [List.isPrefixOf_iff_prefix]
                 exact not_prefix_of_head_ne h (by decide) (by decide) (by decide))]
  · rw [if_neg (by rw [List.isPrefixOf_iff_prefix]
                   exact not_prefix_of_head_ne h (by decide) (by decide) (by decide)),
      if_neg (by rw [List.isPrefixOf_iff_prefix]
                 exact not_prefix_of_head_ne h (by decide) (by decide) (by decide)),
      if_neg (by rw [List.isPrefixOf_iff_prefix]
                 exact not_prefix_of_head_ne h (by decide) (by decide) (by decide)),
      if_pos (List.isPrefixOf_iff_prefix.mpr h)]

theorem no_string_class (status : Nat) :
    "NO".toList <+: ("NO - Endpoint returned status " ++ toString status ++
      ". Not a GraphQL endpoint.").toList := by
  rw [toList_append, toList_append]
  exact prefix_extend _ (prefix_extend _ (by decide))

/-- Every normal return of the `try` block is `YES`-, `MAYBE`- or
`NO`-prefixed. -/
theorem checkGqlInner_classes {status : Nat} {body : Except String Json}
    {s : String} (h : checkGqlInner status body = .ok s) :
    "YES".toList <+: s.toList ∨ "MAYBE".toList <+: s.toList ∨
    "NO".toList <+: s.toList := by
  simp only [checkGqlInner, bind, Except.bind, pure, Except.pure] at h
  by_cases hst : (status == 200) = true
  · rw [if_pos hst] at h
    repeat' split at h
    all_goals cases h
    all_goals first
      | exact Or.inr (Or.inr (no_string_class status))
      | (refine Or.inl ?_
         rw [toList_append, toList_append]
         exact prefix_extend _ (prefix_extend _ (by decide)))
      | (refine Or.inr (Or.inl ?_)
         rw [toList_append]
         exact prefix_extend _ (by decide))
  · rw [if_neg hst] at h
    cases h
    exact Or.inr (Or.inr (no_string_class status))

/-- C7: `check_graphql_endpoint` classifies every outcome into exactly
one of the four result prefixes `YES`/`MAYBE`/`NO`/`ERROR`; an HTTP 200
response whose payload has `data.__schema.types` yields the `YES` string
reporting the count of types; an HTTP 200 response carrying a GraphQL
error envelope (no `data` key, a non-empty `errors` array) yields the
`MAYBE` string reporting the first error's message; any non-200 status
yields the `NO` string; a timeout or transport failure yields an
`ERROR`-prefixed string that is not `NO`-prefixed. -/
theorem C7_graphql_probe :
    (∀ (t : Int) (o : ProbeOutcome),
      probePrefixes.countP
        (fun p => p.toList.isPrefixOf (check_graphql_endpoint t o).toList) = 1) ∧
    (∀ (t : Int) (kvs ddkvs dskvs : List (String × Json)) (ts : List Json),
      lookupEntries kvs "data" = some (.obj ddkvs) →
      lookupEntries ddkvs "__schema" = some (.obj dskvs) →
      lookupEntries dskvs "types" = some (.arr ts) →
      check_graphql_endpoint t (.response 200 (.ok (.obj kvs))) =
        "YES - This is a GraphQL endpoint. Found " ++ toString ts.length ++
        " types via introspection.") ∧
    (∀ (t : Int) (kvs e0kvs : List (String × Json)) (rest : List Json)
       (m : String),
      lookupEntries kvs "data" = none →
      lookupEntries kvs "errors" = some (.arr (.obj e0kvs :: rest)) →
      Json.getD (.obj e0kvs) "message" (.str "Unknown error") = .str m →
      check_graphql_endpoint t (.response 200 (.ok (.obj kvs))) =
        "MAYBE - Endpoint responded but with errors: " ++ m) ∧
    (∀ (t : Int) (status : Nat) (body : Except String Json), status ≠ 200 →
      check_graphql_endpoint t (.response status body) =
        "NO - Endpoint returned status " ++ toString status ++
        ". Not a GraphQL endpoint.") ∧
    (∀ (t : Int) (msg : String),
      ("ERROR".toList <+: (check_graphql_endpoint t .timeout).toList ∧
       ¬ "NO".toList <+: (check_graphql_endpoint t .timeout).toList) ∧
      ("ERROR".toList <+:
          (check_graphql_endpoint t (.transportError msg)).toList ∧
       ¬ "NO".toList <+:
          (check_graphql_endpoint t (.transportError msg)).toList)) := by
  have herrTimeout : ∀ t : Int,
      "ERROR".toList <+: (check_graphql_endpoint t .timeout).toList := by
    intro t
    show "ERROR".toList <+:
      ("ERROR - Request timed out after " ++ toString t ++ " seconds.").toList
    rw [toList_append, toList_append]
    exact prefix_extend _ (prefix_extend _ (by decide))
  have herrTrans : ∀ (t : Int) (msg : String),
      "ERROR".toList <+:
        (check_graphql_endpoint t (.transportError msg)).toList := by
    intro t msg
    show "ERROR".toList <+:
      ("ERROR - Could not connect to endpoint: " ++ msg).toList
    rw [toList_append]
    exact prefix_extend _ (by decide)
  refine ⟨?_, ?_, ?_, ?_, ?_⟩
  · intro t o
    apply probeClass_count
    cases o with
    | timeout => exact Or.inr (Or.inr (Or.inr (herrTimeout t)))
    | transportError msg => exact Or.inr (Or.inr (Or.inr (herrTrans t msg)))
    | response status body =>
      cases hi : checkGqlInner status body with
      | ok s =>
        have : check_graphql_endpoint t (.response status body) = s := by
          simp [check_graphql_endpoint, hi]
        rw [this]
        rcases checkGqlInner_classes hi with h | h | h
        · exact Or.inl h
        · exact Or.inr (Or.inl h)
        · exact Or.inr (Or.inr (Or.inl h))
      | error e =>
        have : check_graphql_endpoint t (.response status body) =
            "ERROR - Unexpected error: " ++ unexpectedErrMsg := by
          simp [check_graphql_endpoint, hi]
        rw [this]
        refine Or.inr (Or.inr (Or.inr ?_))
        rw [toList_append]
        exact prefix_extend _ (by decide)
  · intro t kvs ddkvs dskvs ts h1 h2 h3
    have hinner : checkGqlInner 200 (.ok (.obj kvs)) =
        .ok ("YES - This is a GraphQL endpoint. Found " ++ toString ts.length ++
          " types via introspection.") := by
      simp [checkGqlInner, bind, Except.bind, pure, Except.pure, pyContainsKey,
        pyIndex, pyLen, Json.lookup, h1, h2, h3]
    simp [check_graphql_endpoint, hinner]
  · intro t kvs e0kvs rest m h1 h2 h3
    have hinner : checkGqlInner 200 (.ok (.obj kvs)) =
        .ok ("MAYBE - Endpoint responded but with errors: " ++ m) := by
      simp [checkGqlInner, bind, Except.bind, pure, Except.pure, pyContainsKey,
        pyIndex, Json.lookup, h1, h2, h3, pyStrScalar]
    simp [check_graphql_endpoint, hinner]
  · intro t status body hne
    have hb : (status == 200) = false := by
      rw [beq_eq_false_iff_ne]
      exact hne
    have hinner : checkGqlInner status body =
        .ok ("NO - Endpoint returned status " ++ toString status ++
          ". Not a GraphQL endpoint.") := by
      simp [checkGqlInner, hb, pure, Except.pure]
    simp [check_graphql_endpoint, hinner]
  · intro t msg
    refine ⟨⟨herrTimeout t, ?_⟩, ⟨herrTrans t msg, ?_⟩⟩
    · exact not_prefix_of_head_ne (herrTimeout t) (by decide) (by decide) (by decide)
    · exact not_prefix_of_head_ne (herrTrans t msg) (by decide) (by decide) (by decide)

/-- C7 witness: an endpoint answering 200 with 15 introspected types is
classified `YES` with "Found 15 types"; status 404 gives the `NO`
string. -/
theorem C7_graphql_probe_witness :
    check_graphql_endpoint 30 (.response 200 (.ok (.obj [("data", .obj
        [("__schema", .obj [("types", .arr (List.replicate 15 .null))])])]))) =
      "YES - This is a GraphQL endpoint. Found 15 types via introspection." ∧
    check_graphql_endpoint 30 (.response 404 (.error "nope")) =
      "NO - Endpoint returned status 404. Not a GraphQL endpoint." :=
  ⟨C7_graphql_probe.2.1 30
      [("data", .obj [("__schema", .obj [("types", .arr (List.replicate 15 .null))])])]
      [("__schema", .obj [("types", .arr (List.replicate 15 .null))])]
      [("types", .arr (List.replicate 15 .null))]
      (List.replicate 15 .null) rfl rfl rfl,
   C7_graphql_probe.2.2.2.1 30 404 (.error "nope") (by decide)⟩

/-! ## Claim C8: the OpenAPI path scan -/

/-- C8 counterexample: a `.yaml` path answering HTTP 200 with VALID
JSON that lacks the `openapi`/`swagger`/`paths` markers is NOT accepted:
the YAML-suffix acceptance lives in the `except:` handler, so it only
applies when the body fails to parse (or the marker check raises) — the
claimed "HTTP 200 and (markers or .yaml suffix)" iff predicts a hit
here. -/
theorem C8_counterexample :
    pathHit "http://api.example.com" "/swagger.yaml"
      (.response 200 (.ok (.obj []))) = none ∧
    strHasSuffix "/swagger.yaml" ".yaml" = true :=
  ⟨rfl, by decide⟩

/-- The concrete scan of scenario B: a valid spec only at
`/v3/api-docs`, every other path 404s with a non-JSON body. -/
def scenarioFetch (url : String) : PathOutcome :=
  if url == "https://api.example.com/v3/api-docs" then
    .response 200 (.ok (.obj [("openapi", .str "3.0.1"), ("paths", .obj [])]))
  else .response 404 (.error "not found")

/-- C8 (amended): a path is accepted as a hit iff the request produced
an HTTP 200 response and either (a) the inner validation succeeds — the
body is valid JSON whose marker check finds `openapi`/`swagger`/`paths`
— or (b) the body is not valid JSON, or the validation raises, AND the
path ends in `.yaml`; a `.yaml` path whose body is valid marker-less
JSON is NOT accepted.  A base URL with a valid spec only at
`/v3/api-docs` yields exactly one hit, at that path; an empty hit set
produces the `NO` string, distinct from the scan-level `ERROR`
string. -/
theorem C8_path_scan :
    (∀ (base path : String) (o : PathOutcome),
      (pathHit base path o).isSome = true ↔
        ∃ status body, o = .response status body ∧ status = 200 ∧
          ((∃ data v, body = .ok data ∧ openapiJsonHit data = .ok (some v)) ∨
           (((∃ msg, body = .error msg) ∨
             (∃ data, body = .ok data ∧ openapiJsonHit data = .error ())) ∧
            strHasSuffix path ".yaml" = true))) ∧
    check_openapi_endpoint none scenarioFetch "https://api.example.com" =
      "YES - Found OpenAPI spec at:\n  • https://api.example.com/v3/api-docs (version: 3.0.1)" ∧
    check_openapi_endpoint none (fun _ => .response 404 (.error "not found"))
        "https://api.example.com" =
      "NO - No OpenAPI specification found at standard locations." ∧
    (∀ (msg base : String) (fetch : String → PathOutcome),
      "ERROR".toList <+:
        (check_openapi_endpoint (some msg) fetch base).toList ∧
      ¬ "NO".toList <+:
        (check_openapi_endpoint (some msg) fetch base).toList) := by
  refine ⟨?_, by decide, by decide, ?_⟩
  · intro base path o
    cases o with
    | requestError =>
      simp only [pathHit, Option.isSome_none]
      constructor
      · intro h
        cases h
      · rintro ⟨status, body, heq, -⟩
        cases heq
    | response status body =>
      simp only [pathHit]
      by_cases hst : (status == 200) = true
      · rw [if_pos hst]
        have hstatus : status = 200 := eq_of_beq hst
        subst hstatus
        cases body with
        | ok data =>
          cases hj : openapiJsonHit data with
          | ok ov =>
            cases ov with
            | some v =>
              simp only [hj, Option.isSome_some]
              constructor
              · intro _
                exact ⟨200, .ok data, rfl, rfl, Or.inl ⟨data, v, rfl, hj⟩⟩
              · intro _
                trivial
            | none =>
              simp only [hj, Option.isSome_none]
              constructor
              · intro h
                cases h
              · rintro ⟨status', body', heq, -, hcase⟩
                cases heq
                rcases hcase with ⟨d, v, hd, hv⟩ | ⟨hb, -⟩
                · cases hd
                  rw [hj] at hv
                  cases hv
                · rcases hb with ⟨m, hm⟩ | ⟨d, hd, hv⟩
                  · cases hm
                  · cases hd
                    rw [hj] at hv
                    cases hv
          | error e =>
            simp only [hj]
            by_cases hy : strHasSuffix path ".yaml" = true
            · rw [if_pos hy]
              simp only [Option.isSome_some]
              constructor
              · intro _
                exact ⟨200, .ok data, rfl, rfl,
                  Or.inr ⟨Or.inr ⟨data, rfl, by rw [hj]⟩, hy⟩⟩
              · intro _
                trivial
            · rw [if_neg hy]
              simp only [Option.isSome_none]
              constructor
              · intro h
                cases h
              · rintro ⟨status', body', heq, -, hcase⟩
                cases heq
                rcases hcase with ⟨d, v, hd, hv⟩ | ⟨-, hyam⟩
                · cases hd
                  rw [hj] at hv
                  cases hv
                · exact absurd hyam hy
        | error msg =>
          by_cases hy : strHasSuffix path ".yaml" = true
          · rw [if_pos hy]
            simp only [Option.isSome_some]
            constructor
            · intro _
              exact ⟨200, .error msg, rfl, rfl, Or.inr ⟨Or.inl ⟨msg, rfl⟩, hy⟩⟩
            · intro _
              trivial
          · rw [if_neg hy]
            simp only [Option.isSome_none]
            constructor
            · intro h
              cases h
            · rintro ⟨status', body', heq, -, hcase⟩
              cases heq
              rcases hcase with ⟨d, v, hd, -⟩ | ⟨-, hyam⟩
              · cases hd
              · exact absurd hyam hy
      · rw [if_neg hst]
        simp only [Option.isSome_none]
        constructor
        · intro h
          cases h
        · rintro ⟨status', body', heq, hs, -⟩
          cases heq
          exact absurd (by rw [hs]; exact beq_self_eq_true 200) hst
  · intro msg base fetch
    have heq : check_openapi_endpoint (some msg) fetch base =
        "ERROR - Failed to check for OpenAPI: " ++ msg := rfl
    rw [heq, toList_append]
    have hE : "ERROR".toList <+:
        ("ERROR - Failed to check for OpenAPI: ".toList ++ msg.toList) :=
      prefix_extend _ (by decide)
    exact ⟨hE, not_prefix_of_head_ne hE (by decide) (by decide) (by decide)⟩

/-- C8 witness: the amended acceptance iff at concrete inputs — a
marker-bearing JSON response is a hit, and a non-JSON `.yaml` response
is a hit. -/
theorem C8_path_scan_witness :
    ((pathHit "http://x" "/openapi.json"
      (.response 200 (.ok (.obj [("openapi", .str "3.0")])))).isSome = true) ∧
    ((pathHit "http://x" "/swagger.yaml"
      (.response 200 (.error "not json"))).isSome = true) :=
  ⟨(C8_path_scan.1 "http://x" "/openapi.json"
      (.response 200 (.ok (.obj [("openapi", .str "3.0")])))).mpr
    ⟨200, .ok (.obj [("openapi", .str "3.0")]), rfl, rfl,
      Or.inl ⟨.obj [("openapi", .str "3.0")], "3.0", rfl, rfl⟩⟩,
   (C8_path_scan.1 "http://x" "/swagger.yaml"
      (.response 200 (.error "not json"))).mpr
    ⟨200, .error "not json", rfl, rfl,
      Or.inr ⟨Or.inl ⟨"not json", rfl⟩, by decide⟩⟩⟩

/-! ## Claim C9: the pipeline's validate gate -/

/-- C9: if any transcript message present after the export phase
contains the literal substring `ERROR`, the validate node sets status
to `failed` and the run transitions straight to END — the nodes visited
after export are exactly `[validate]`, so the parse subgraph is never
invoked, whatever it would do; otherwise status becomes `success` and
`prepare_parse` runs before `parse`. -/
theorem C9_pipeline_gate :
    (∀ (parseStep : AgentState → AgentState) (s : AgentState),
      (∃ m ∈ s.messages, "ERROR".toList <:+: m.toList) →
      runAfterExport parseStep s =
        ({ s with status := "failed" }, [.validate]) ∧
      PipelineNode.parse ∉ (runAfterExport parseStep s).2) ∧
    (∀ (parseStep : AgentState → AgentState) (s : AgentState),
      (∀ m ∈ s.messages, ¬ "ERROR".toList <:+: m.toList) →
      runAfterExport parseStep s =
        (parseStep { s with
            status := "success"
            messages := s.messages ++
              prepare_for_parsing { s with status := "success" } },
         [.validate, .prepare_parse, .parse])) := by
  constructor
  · intro parseStep s h
    have hany : s.messages.any
        (fun m => decide ("ERROR".toList <:+: m.toList)) = true := by
      rw [List.any_eq_true]
      obtain ⟨m, hm, hinf⟩ := h
      exact ⟨m, hm, by simpa using hinf⟩
    have hcs : check_export_success s = "failed" := by
      simp only [check_export_success, if_pos hany]
    have h1 : runAfterExport parseStep s =
        ({ s with status := "failed" }, [.validate]) := by
      simp [runAfterExport, hcs, route_after_validation]
    refine ⟨h1, ?_⟩
    rw [h1]
    simp
  · intro parseStep s h
    have hany : s.messages.any
        (fun m => decide ("ERROR".toList <:+: m.toList)) = false := by
      rw [List.any_eq_false]
      intro m hm
      simpa using h m hm
    have hcs : check_export_success s = "success" := by
      simp only [check_export_success, hany]
      rfl
    simp [runAfterExport, hcs, route_after_validation]

/-- C9 witness: a transcript carrying an `ERROR` marker short-circuits
to `failed` with only `validate` visited; a clean transcript reaches
`parse` through `prepare_parse` with status `success`. -/
theorem C9_pipeline_gate_witness :
    (runAfterExport id ⟨["probe ERROR - failed"], none, "exporting"⟩ =
      (⟨["probe ERROR - failed"], none, "failed"⟩, [.validate]) ∧
     PipelineNode.parse ∉
       (runAfterExport id ⟨["probe ERROR - failed"], none, "exporting"⟩).2) ∧
    runAfterExport id ⟨["all good"], some "raw", "exporting"⟩ =
      (⟨["all good",
         "Now parse this schema into structured entities:\n\n" ++ "raw"],
        some "raw", "success"⟩,
       [.validate, .prepare_parse, .parse]) :=
  ⟨C9_pipeline_gate.1 id ⟨["probe ERROR - failed"], none, "exporting"⟩
      ⟨"probe ERROR - failed", by decide, by decide⟩,
   C9_pipeline_gate.2 id ⟨["all good"], some "raw", "exporting"⟩
      (by decide)⟩

end Graphmorph
